import Mathlib

/-!
Verification development for the crypto_strategy screener.

This file gives a shallow embedding of the core components of the
repository — the strategy evaluators (Turtle, BNF, Coiled-Spring), the
SQLite persistence layer (`DatabaseManager`), the rate limiter
(`RateLimiter`), the OHLCV validator/cleaner (`CryptoDataValidator`) —
and proves or refutes the testable properties stated in the
specification.

Conventions of the embedding:
* pandas/Python floats are modelled as exact rationals (`ℚ`);
* a possibly-missing value (a pandas `NaN`) is modelled as `Option ℚ`,
  with comparisons against `none` evaluating to `false`, matching
  pandas/NumPy comparison semantics for `NaN`;
* calendar dates are modelled as integer day numbers (days since the
  Unix epoch, via the standard civil-calendar conversion), which is
  order- and arithmetic-isomorphic to the `datetime` day arithmetic the
  source performs;
* Python `int()` truncation of a positive quotient is `Int.floor`.
-/

namespace CryptoStrategy

/-! ## Strategy evaluators

`src/strategies/turtle.py`, `src/strategies/bnf.py`,
`src/strategies/coiled_spring.py`.  Signal detection in the source only
examines the single most recent row of the indicator-enriched frame, so
each evaluator is embedded as a function of that latest row (whose
fields are the indicator columns the source reads) together with the
length of the frame (used by the row-count pre-checks). -/

/-- Comparison `x > c` where `x` may be missing; pandas evaluates
`NaN > c` to `False`. -/
def oGT (x : Option ℚ) (c : ℚ) : Bool :=
  match x with
  | some v => decide (v > c)
  | none => false

/-- Comparison `x < y` where either side may be missing. -/
def oLT2 (x y : Option ℚ) : Bool :=
  match x, y with
  | some a, some b => decide (a < b)
  | _, _ => false

/-- Comparison `x > y` where either side may be missing. -/
def oGT2 (x y : Option ℚ) : Bool :=
  match x, y with
  | some a, some b => decide (a > b)
  | _, _ => false

/-- Scores dictionary produced by `TurtleStrategy._calculate_signal_score`. -/
structure TurtleScores where
  breakoutScore : ℚ
  volumeScore : ℚ
  momentumScore : ℚ
  totalScore : ℚ
deriving Repr, DecidableEq

/-- `TurtleStrategy._calculate_signal_score` (turtle.py lines 188-234):
breakout-distance band (40/30/15/5), volume-ratio band (35/28/20/12),
5-day-momentum band (25/20/15/8/0); the total is the sum of the three. -/
def turtleScore (priceAbovePct volumeRatio momentum5d : ℚ) : TurtleScores :=
  let breakout : ℚ :=
    if 0 < priceAbovePct ∧ priceAbovePct ≤ 2 then 40
    else if 2 < priceAbovePct ∧ priceAbovePct ≤ 5 then 30
    else if 5 < priceAbovePct ∧ priceAbovePct ≤ 10 then 15
    else 5
  let volume : ℚ :=
    if volumeRatio ≥ 2 then 35
    else if volumeRatio ≥ 3/2 then 28
    else if volumeRatio ≥ 6/5 then 20
    else 12
  let momentum : ℚ :=
    if momentum5d > 5/100 then 25
    else if momentum5d > 3/100 then 20
    else if momentum5d > 1/100 then 15
    else if momentum5d > 0 then 8
    else 0
  ⟨breakout, volume, momentum, breakout + volume + momentum⟩

/-- Latest indicator-enriched row as read by `TurtleStrategy.detect_signals`:
base columns plus the derived columns from
`TurtleStrategy.calculate_indicators`.  Rolling columns are `Option`
because a rolling window shorter than its period yields `NaN`. -/
structure TurtleRow where
  date : ℤ
  close : ℚ
  volume : ℚ
  atr : Option ℚ
  high20 : Option ℚ
  high55 : Option ℚ
  volumeRatio : Option ℚ
  momentum5d : Option ℚ
  change20d : Option ℚ
deriving Repr, DecidableEq

/-- Column `system1_breakout = Close > high_20` (turtle.py line 82). -/
def turtleSys1Breakout (r : TurtleRow) : Bool :=
  match r.high20 with
  | some h => decide (r.close > h)
  | none => false

/-- Column `system2_breakout = Close > high_55` (turtle.py line 83). -/
def turtleSys2Breakout (r : TurtleRow) : Bool :=
  match r.high55 with
  | some h => decide (r.close > h)
  | none => false

/-- The `TurtleSignal` dataclass (models/signals.py), restricted to its
numeric payload. -/
structure TurtleSignal where
  signalType : String
  price : ℚ
  atr : ℚ
  unitSize : ℤ
  stopLossPrice : ℚ
  breakoutHigh : ℚ
  daysInBreakout : ℕ
  volume : ℚ
  volumeRatio : ℚ
  momentum5d : ℚ
  totalScore : ℚ
  breakoutScore : ℚ
  volumeScore : ℚ
  momentumScore : ℚ
deriving Repr, DecidableEq

/-- `TurtleStrategy._create_turtle_signal` (turtle.py lines 140-186) for
one breakout system, with the default `account_value = 100000`. -/
def turtleCreateSignal (r : TurtleRow) (sigType : String) (days : ℕ)
    (breakoutHigh : Option ℚ) (a : ℚ) : TurtleSignal :=
  let unitSize : ℤ := if a > 0 then ⌊(100000 * (1/100)) / a⌋ else 0
  let stopLoss : ℚ := r.close - 2 * a
  let bh : ℚ := breakoutHigh.getD r.close
  let priceAbove : ℚ := if bh > 0 then (r.close - bh) / bh * 100 else 0
  let vr : ℚ := r.volumeRatio.getD 1
  let mom : ℚ := r.momentum5d.getD 0
  let scores := turtleScore priceAbove vr mom
  { signalType := sigType
    price := r.close
    atr := a
    unitSize := unitSize
    stopLossPrice := stopLoss
    breakoutHigh := bh
    daysInBreakout := days
    volume := r.volume
    volumeRatio := vr
    momentum5d := mom
    totalScore := scores.totalScore
    breakoutScore := scores.breakoutScore
    volumeScore := scores.volumeScore
    momentumScore := scores.momentumScore }

/-- `TurtleStrategy.detect_signals` (turtle.py lines 91-138) on the
latest row of a frame of `n` rows.  Config values are the hard-coded
defaults: `lookback_days = 60` (also `min_periods = 60` used by
`BaseStrategy.validate_data`), `min_price = 10`, `min_volume = 500000`,
`system1_entry = 20`, `system2_entry = 55`. -/
def turtleDetect (n : ℕ) (r : TurtleRow) : List TurtleSignal :=
  if n < 60 then []
  else if r.close < 10 then []
  else if r.volume < 500000 then []
  else
    match r.atr with
    | none => []
    | some a =>
      if a ≤ 0 then []
      else
        (if turtleSys1Breakout r then
          [turtleCreateSignal r "system1_entry" 20 r.high20 a] else []) ++
        (if turtleSys2Breakout r then
          [turtleCreateSignal r "system2_entry" 55 r.high55 a] else [])

/-- Scores dictionary produced by `BNFStrategy._calculate_signal_score`. -/
structure BNFScores where
  deviationScore : ℚ
  volumeScore : ℚ
  totalScore : ℚ
deriving Repr, DecidableEq

/-- `BNFStrategy._calculate_signal_score` (bnf.py lines 119-153):
deviation-depth band (60/50/40/30/0) plus volume-ratio band
(40/30/20/10/5); the total is their sum. -/
def bnfScore (deviationRate volumeRatio : ℚ) : BNFScores :=
  let dev : ℚ :=
    if deviationRate ≤ -(25/100) then 60
    else if deviationRate ≤ -(23/100) then 50
    else if deviationRate ≤ -(21/100) then 40
    else if deviationRate ≤ -(20/100) then 30
    else 0
  let volume : ℚ :=
    if volumeRatio ≥ 2 then 40
    else if volumeRatio ≥ 3/2 then 30
    else if volumeRatio ≥ 6/5 then 20
    else if volumeRatio ≥ 1 then 10
    else 5
  ⟨dev, volume, dev + volume⟩

/-- Latest indicator-enriched row as read by `BNFStrategy.detect_signals`. -/
structure BNFRow where
  date : ℤ
  close : ℚ
  volume : ℚ
  ma25 : Option ℚ
  deviationRate : Option ℚ
  volumeRatio : Option ℚ
deriving Repr, DecidableEq

/-- The `BNFSignal` dataclass (models/signals.py), numeric payload. -/
structure BNFSignal where
  price : ℚ
  ma25 : ℚ
  deviationRate : ℚ
  volume : ℚ
  volumeRatio : ℚ
  deviationScore : ℚ
  volumeScore : ℚ
  totalScore : ℚ
deriving Repr, DecidableEq

/-- `BNFStrategy.detect_signals` (bnf.py lines 61-117) on the latest row
of a frame of `n` rows; defaults `min_periods = 30`, `ma_period = 25`,
`min_price = 10`, `min_volume = 500000`, `deviation_threshold = -0.20`.
When the stored `volume_ratio` is `NaN` the source recomputes it from
the raw volume column; that recomputed value enters here as
`fallbackVR`. -/
def bnfDetect (n : ℕ) (fallbackVR : ℚ) (r : BNFRow) : List BNFSignal :=
  if n < 30 then []
  else if n < 25 then []
  else if r.close < 10 then []
  else if r.volume < 500000 then []
  else
    match r.ma25, r.deviationRate with
    | some m, some d =>
      if d ≤ -(20/100) then
        let vr : ℚ := r.volumeRatio.getD fallbackVR
        let scores := bnfScore d vr
        [{ price := r.close, ma25 := m, deviationRate := d,
           volume := r.volume, volumeRatio := vr,
           deviationScore := scores.deviationScore,
           volumeScore := scores.volumeScore,
           totalScore := scores.totalScore }]
      else []
    | _, _ => []

/-- Scores dictionary produced by
`CoiledSpringStrategy._calculate_signal_score`. -/
structure CSScores where
  volatilityScore : ℚ
  trendScore : ℚ
  volumeScore : ℚ
  totalScore : ℚ
deriving Repr, DecidableEq

/-- `CoiledSpringStrategy._calculate_signal_score` (coiled_spring.py
lines 165-223): volatility band (40), trend band (alignment 15 +
up-day-ratio tier 15/10/5), volume-contraction band (20), and a
historical-volatility bonus (10/5/0, keyed on `volatility_60d`) that is
seeded directly into `total_score` before the named sub-scores are
added. -/
def csScore (volatility10d volatility60d : ℚ) (maAlignment : Bool)
    (upTrendStrength volumeRatio : ℚ) : CSScores :=
  let vol : ℚ :=
    if volatility10d ≤ 1/100 then 40
    else if volatility10d ≤ 2/100 then 30
    else if volatility10d ≤ 3/100 then 20
    else if volatility10d ≤ 5/100 then 10
    else 0
  let trendA : ℚ := if maAlignment then 15 else 0
  let trendB : ℚ :=
    if upTrendStrength > 6/10 then 15
    else if upTrendStrength > 55/100 then 10
    else if upTrendStrength > 5/10 then 5
    else 0
  let trend : ℚ := trendA + trendB
  let volume : ℚ :=
    if volumeRatio ≤ 4/10 then 20
    else if volumeRatio ≤ 5/10 then 15
    else if volumeRatio ≤ 6/10 then 10
    else if volumeRatio ≤ 7/10 then 5
    else 0
  let bonus : ℚ :=
    if volatility60d > 4/10 then 10
    else if volatility60d > 3/10 then 5
    else 0
  ⟨vol, trend, volume, bonus + vol + trend + volume⟩

/-- Latest indicator-enriched row as read by
`CoiledSpringStrategy.detect_signals`, with the derived columns of
`CoiledSpringStrategy.calculate_indicators`. -/
structure CSRow where
  date : ℤ
  close : ℚ
  volume : ℚ
  ema20 : Option ℚ
  sma50 : Option ℚ
  sma100 : Option ℚ
  sd10 : Option ℚ
  sd60 : Option ℚ
  vol10 : Option ℚ
  vol60 : Option ℚ
  upDays6mo : Option ℚ
  diff3mo : Option ℚ
deriving Repr, DecidableEq

/-- Condition 1, `volatility_check = diff_percentage_3mo > 0.3`
(coiled_spring.py line 74). -/
def csVolatilityCheck (r : CSRow) : Bool := oGT r.diff3mo (3/10)

/-- Condition 2, `price_contract = sd_10 < sd_60 * 0.5`
(coiled_spring.py line 77). -/
def csPriceContract (r : CSRow) : Bool :=
  oLT2 r.sd10 (r.sd60.map (fun x => x * (5/10)))

/-- Condition 3, `ma_alignment = (ema_20 > sma_50) & (sma_50 > sma_100)`
(coiled_spring.py lines 80-83). -/
def csMaAlignment (r : CSRow) : Bool :=
  oGT2 r.ema20 r.sma50 && oGT2 r.sma50 r.sma100

/-- Condition 4, `up_trend_6mo = price_up_6mo_days > 60`
(coiled_spring.py line 86, `trend_days_threshold = 60`). -/
def csUpTrend6mo (r : CSRow) : Bool := oGT r.upDays6mo 60

/-- Condition 5, `vol_contract = vol_10 < vol_60 * 0.55`
(coiled_spring.py line 89). -/
def csVolContract (r : CSRow) : Bool :=
  oLT2 r.vol10 (r.vol60.map (fun x => x * (55/100)))

/-- Number of the five Coiled-Spring boolean conditions holding on a row. -/
def csConditionCount (r : CSRow) : ℕ :=
  (if csVolatilityCheck r then 1 else 0) +
  (if csPriceContract r then 1 else 0) +
  (if csMaAlignment r then 1 else 0) +
  (if csUpTrend6mo r then 1 else 0) +
  (if csVolContract r then 1 else 0)

/-- The `CoiledSpringSignal` dataclass (models/signals.py), numeric
payload. -/
structure CSSignal where
  price : ℚ
  volatility10d : ℚ
  volatility60d : ℚ
  ma20ema : ℚ
  ma50sma : ℚ
  ma100sma : ℚ
  volumeRatio : ℚ
  upTrendStrength : ℚ
  totalScore : ℚ
  volatilityScore : ℚ
  trendScore : ℚ
  volumeScore : ℚ
deriving Repr, DecidableEq

/-- `CoiledSpringStrategy.detect_signals` (coiled_spring.py lines
97-163) on the latest row of a frame of `n` rows; defaults
`trend_period = 120` (= `min_periods`), `min_price = 10`,
`min_volume = 500000`.  A signal is built only when all five boolean
conditions hold on the latest row. -/
def csDetect (n : ℕ) (r : CSRow) : List CSSignal :=
  if n < 120 then []
  else
    match r.ema20, r.sma50, r.sma100 with
    | some e20, some s50, some s100 =>
      if r.close < 10 ∨ r.volume < 500000 then []
      else if csVolatilityCheck r && csPriceContract r && csMaAlignment r &&
              csUpTrend6mo r && csVolContract r then
        let upStrength : ℚ := (r.upDays6mo.getD 0) / 120
        let v60 : ℚ := r.vol60.getD 0
        let volumeRatio : ℚ := if v60 > 0 then (r.vol10.getD 0) / v60 else 1
        let scores := csScore (r.sd10.getD 0) (r.sd60.getD 0)
          (csMaAlignment r) upStrength volumeRatio
        [{ price := r.close
           volatility10d := r.sd10.getD 0
           volatility60d := r.sd60.getD 0
           ma20ema := e20, ma50sma := s50, ma100sma := s100
           volumeRatio := volumeRatio
           upTrendStrength := upStrength
           totalScore := scores.totalScore
           volatilityScore := scores.volatilityScore
           trendScore := scores.trendScore
           volumeScore := scores.volumeScore }]
      else []
    | _, _, _ => []

/-! ## Persistence store and gap resolver

`src/core/database.py` (`DatabaseManager`).  A stored row is keyed by
`(date, symbol)`; the table is modelled as a list of rows in insertion
order.  Dates are integer day numbers. -/

/-- A stored `stock_data` row, reduced to its key and a representative
payload (`close`). -/
structure SRow where
  date : ℤ
  symbol : String
  close : ℚ
deriving Repr, DecidableEq

/-- The `stock_data` table, in insertion order. -/
abbrev Store := List SRow

/-- Two rows collide when they agree on the `(date, symbol)` key. -/
def keyMatch (d : ℤ) (s : String) (r : SRow) : Bool :=
  decide (r.date = d) && decide (r.symbol = s)

/-- `DatabaseManager.save_stock_data` (database.py lines 180-225): for
every incoming row, delete any stored row with the same
`(date, symbol)` key; then append all incoming rows via
`to_sql(if_exists='append')`.  The `stock_data` table is declared with
`PRIMARY KEY (date, symbol)` (database.py line 85), so when the batch
itself carries a duplicate key the append raises `IntegrityError`; the
`sqlite3` connection context manager rolls the whole transaction back
(deletes included) and re-raises, leaving the store unchanged.  `none`
models that failure; `some` is the committed store. -/
def saveStockData (batch : List SRow) (st : Store) : Option Store :=
  if (batch.map (fun r => (r.date, r.symbol))).Nodup then
    some ((batch.foldl (fun acc r =>
      acc.filter (fun x => !keyMatch r.date r.symbol x)) st) ++ batch)
  else none

/-- Rows stored under a given key. -/
def rowsForKey (st : Store) (d : ℤ) (s : String) : List SRow :=
  st.filter (keyMatch d s)

/-- `DatabaseManager.get_latest_date` for one symbol (database.py lines
134-144): `SELECT MAX(date) ... WHERE symbol = ?`. -/
def getLatestDate (st : Store) (s : String) : Option ℤ :=
  (st.filterMap (fun r => if r.symbol = s then some r.date else none)).max?

/-- Per-symbol body of `DatabaseManager.get_missing_dates` (database.py
lines 146-178): with `start = end_date - days_back`, a symbol with no
stored rows gets fetch start `start`; a symbol whose latest stored date
is `≥ end_date` is omitted; otherwise the fetch start is
`latest + 1`, floored at `start`. -/
def missingStartForSymbol (latest : Option ℤ) (endDate daysBack : ℤ) :
    Option ℤ :=
  let start := endDate - daysBack
  match latest with
  | none => some start
  | some l =>
    if l ≥ endDate then none
    else
      let u := l + 1
      some (if u < start then start else u)

/-- `DatabaseManager.get_missing_dates` over a symbol list: the
association list of symbols still needing a fetch, with their fetch
start dates. -/
def getMissingDates (st : Store) (symbols : List String)
    (endDate daysBack : ℤ) : List (String × ℤ) :=
  symbols.filterMap (fun s =>
    (missingStartForSymbol (getLatestDate st s) endDate daysBack).map
      (fun d => (s, d)))

/-- Day number of a civil date (days since 1970-01-01), the standard
era-based conversion; faithful to the `datetime` day arithmetic the
source performs on `%Y-%m-%d` strings. -/
def daysFromCivil (y m d : ℤ) : ℤ :=
  let y2 : ℤ := if m ≤ 2 then y - 1 else y
  let era : ℤ := (if 0 ≤ y2 then y2 else y2 - 399) / 400
  let yoe : ℤ := y2 - era * 400
  let mp : ℤ := (m + 9) % 12
  let doy : ℤ := (153 * mp + 2) / 5 + d - 1
  let doe : ℤ := yoe * 365 + yoe / 4 - yoe / 100 + doy
  era * 146097 + doe - 719468

/-! ## Rate limiter

`src/core/api_queue_manager.py` (`RateLimiter`,
`APIQueueManager._process_request`).  Timestamps are integers; the
limiter state is the list of recorded request times in recording
order. -/

/-- Pruning step inside `RateLimiter.can_make_request`: keep the
timestamps with `now - req_time < time_window`. -/
def rlPrune (w : ℤ) (requests : List ℤ) (now : ℤ) : List ℤ :=
  requests.filter (fun r => decide (now - r < w))

/-- `RateLimiter.can_make_request` (api_queue_manager.py lines 67-75):
prune the window in place, then report whether the remaining count is
below the quota.  Returns the pruned state together with the verdict. -/
def rlCanMakeRequest (maxR : ℕ) (w : ℤ) (requests : List ℤ) (now : ℤ) :
    List ℤ × Bool :=
  let pruned := rlPrune w requests now
  (pruned, decide (pruned.length < maxR))

/-- `RateLimiter.record_request` (lines 77-80): append the current
time. -/
def rlRecordRequest (requests : List ℤ) (now : ℤ) : List ℤ :=
  requests ++ [now]

/-- `RateLimiter.get_wait_time` (lines 82-92): time until the oldest
recorded request leaves the window; `0` when nothing is recorded. -/
def rlGetWaitTime (w : ℤ) (requests : List ℤ) (now : ℤ) : ℤ :=
  match requests.min? with
  | none => 0
  | some oldest => max 0 (oldest + w - now)

/-- Admission protocol of `APIQueueManager._process_request` (lines
199-231) for one worker call whose admission check runs at time `t`:
check; when the quota is full, sleep `get_wait_time` (without
re-checking); then record and fire the remote call.  Returns the new
limiter state and the admission time (when the request was recorded). -/
def rlProcessCall (maxR : ℕ) (w : ℤ) (requests : List ℤ) (t : ℤ) :
    List ℤ × ℤ :=
  if (rlCanMakeRequest maxR w requests t).2 then
    (rlRecordRequest (rlCanMakeRequest maxR w requests t).1 t, t)
  else
    (rlRecordRequest (rlCanMakeRequest maxR w requests t).1
      (t + rlGetWaitTime w (rlCanMakeRequest maxR w requests t).1 t),
     t + rlGetWaitTime w (rlCanMakeRequest maxR w requests t).1 t)

/-- A run of worker calls whose admission checks happen at the given
times, threading the limiter state; yields the final state and the
admission times. -/
def rlRun (maxR : ℕ) (w : ℤ) (requests : List ℤ) : List ℤ → List ℤ × List ℤ
  | [] => (requests, [])
  | t :: ts =>
    let p := rlProcessCall maxR w requests t
    let rest := rlRun maxR w p.1 ts
    (rest.1, p.2 :: rest.2)

/-- Sequential (non-overlapping) execution: each admission check runs no
earlier than every timestamp already recorded — a single worker finishes
its call, including the sleep and the record, before the next call's
check begins, and the wall clock is monotone. -/
def rlSequential (maxR : ℕ) (w : ℤ) : List ℤ → List ℤ → Prop
  | _, [] => True
  | st, t :: ts =>
    (∀ r ∈ st, r ≤ t) ∧ rlSequential maxR w (rlProcessCall maxR w st t).1 ts

/-- Number of times in `l` lying in the trailing window `(T - w, T]`. -/
def windowCount (w : ℤ) (l : List ℤ) (T : ℤ) : ℕ :=
  l.countP (fun a => decide (T - w < a) && decide (a ≤ T))

/-! ## BNF indicator computation

`src/strategies/bnf.py` (`BNFStrategy.calculate_indicators`).  pandas
assignments mutate the frame in place; an exception anywhere inside the
`try` block makes the `except` arm return that same, partially-mutated
frame.  The embedding makes the mutation explicit: the computation is a
list of column-assignment steps, and an injected error index `k` means
the exception was raised after the first `k` steps completed. -/

/-- Rolling mean over windows of `w` rows (pandas `rolling(w).mean()`
with its default `min_periods = w`): position `i` holds the mean of the
`w` entries ending at `i`, or `NaN` while fewer than `w` are
available. -/
def rollingMean (w : ℕ) (l : List ℚ) : List (Option ℚ) :=
  (List.range l.length).map (fun i =>
    if w ≤ i + 1 then some (((l.drop (i + 1 - w)).take w).sum / w)
    else none)

/-- The frame consumed by `BNFStrategy.calculate_indicators`: the base
columns plus the derived columns, where an absent column is `none` and a
present column is a list of possibly-`NaN` cells. -/
structure BFrame where
  close : List ℚ
  volume : List ℚ
  ma25 : Option (List (Option ℚ))
  deviationRate : Option (List (Option ℚ))
  buySignal : Option (List Bool)
  volume20 : Option (List (Option ℚ))
  volumeRatio : Option (List (Option ℚ))
deriving Repr, DecidableEq

/-- Step 1 (bnf.py line 42): `ma25 = Close.rolling(25).mean()`. -/
def bnfStep1 (f : BFrame) : BFrame :=
  { f with ma25 := some (rollingMean 25 f.close) }

/-- Step 2 (line 45): `deviation_rate = (Close - ma25) / ma25`. -/
def bnfStep2 (f : BFrame) : BFrame :=
  let m := f.ma25.getD (List.replicate f.close.length none)
  { f with deviationRate := some (List.zipWith
      (fun c mv => mv.map (fun m0 => (c - m0) / m0)) f.close m) }

/-- Step 3 (line 48): `bnf_buy_signal = deviation_rate <= -0.20`; a
`NaN` deviation compares as `False`. -/
def bnfStep3 (f : BFrame) : BFrame :=
  let d := f.deviationRate.getD (List.replicate f.close.length none)
  { f with buySignal := some (d.map (fun dv =>
      match dv with
      | some v => decide (v ≤ -(20/100))
      | none => false)) }

/-- Step 4 (lines 51-53): only when the `volume_ratio` column is absent,
`volume_20 = Volume.rolling(20).mean()` and
`volume_ratio = Volume / volume_20`. -/
def bnfStep4 (f : BFrame) : BFrame :=
  match f.volumeRatio with
  | some _ => f
  | none =>
    let v20 := rollingMean 20 f.volume
    { f with volume20 := some v20
             volumeRatio := some (List.zipWith
               (fun v mv => mv.map (fun m0 => v / m0)) f.volume v20) }

/-- The column-assignment steps of `BNFStrategy.calculate_indicators`,
in program order. -/
def bnfSteps : List (BFrame → BFrame) := [bnfStep1, bnfStep2, bnfStep3, bnfStep4]

/-- `BNFStrategy.calculate_indicators` (bnf.py lines 38-59) with an
injected error point: `err = none` is the normal run; `err = some k`
means an exception was raised after the first `k` column assignments,
so the `except` arm returns the frame mutated by exactly those steps. -/
def bnfCalcIndicators (err : Option ℕ) (f : BFrame) : BFrame :=
  match err with
  | none => bnfSteps.foldl (fun acc s => s acc) f
  | some k => (bnfSteps.take k).foldl (fun acc s => s acc) f

/-! ## OHLCV validation

`src/core/crypto_data_validator.py` (`validate_ohlcv_data`) and
`src/utils/validators.py` (`validate_price_data`). -/

/-- A raw OHLCV row with all cells present (the validator's dtype
conversion has already succeeded). -/
structure VRow where
  date : ℤ
  vopen : ℚ
  vhigh : ℚ
  vlow : ℚ
  vclose : ℚ
  vvolume : ℚ
deriving Repr, DecidableEq

/-- The frame a validator receives: which of the required columns are
present, and the rows. -/
structure VFrame where
  hasDate : Bool
  hasOpen : Bool
  hasHigh : Bool
  hasLow : Bool
  hasClose : Bool
  hasVolume : Bool
  rows : List VRow
deriving Repr, DecidableEq

/-- The validation-report dictionary built by
`CryptoDataValidator.validate_ohlcv_data`. -/
structure VReport where
  isValid : Bool
  errors : List String
  warnings : List String
deriving Repr, DecidableEq

/-- Whether all six required columns are present. -/
def vAllColumns (f : VFrame) : Bool :=
  f.hasDate && f.hasOpen && f.hasHigh && f.hasLow && f.hasClose && f.hasVolume

/-- Consecutive pairs of a list. -/
def pairsOf {α : Type} (l : List α) : List (α × α) := l.zip l.tail

/-- Value-level error list of `validate_ohlcv_data` (crypto_data_validator.py
lines 77-105 and 182-203): non-positive prices per price column,
negative volume, `High < Low` rows, and duplicate dates. -/
def vErrors (rows : List VRow) : List String :=
  (if rows.any (fun r => decide (r.vopen ≤ 0)) then ["Open non-positive"] else []) ++
  (if rows.any (fun r => decide (r.vhigh ≤ 0)) then ["High non-positive"] else []) ++
  (if rows.any (fun r => decide (r.vlow ≤ 0)) then ["Low non-positive"] else []) ++
  (if rows.any (fun r => decide (r.vclose ≤ 0)) then ["Close non-positive"] else []) ++
  (if rows.any (fun r => decide (r.vvolume < 0)) then ["Volume negative"] else []) ++
  (if rows.any (fun r => decide (r.vhigh < r.vlow)) then ["High lt Low"] else []) ++
  (if (rows.map (·.date)).Nodup then [] else ["duplicate dates"])

/-- Warning list of `validate_ohlcv_data` (lines 97-105, 138-203):
`High` below `Open`/`Close`, `Low` above `Open`/`Close`, single-day
close moves beyond the 50% deviation threshold, zero-volume rows,
volume spikes beyond five standard deviations (expressed by squaring,
which is exact), out-of-order dates, and date gaps over three days. -/
def vWarnings (rows : List VRow) : List String :=
  let closes := rows.map (·.vclose)
  let vols := rows.map (·.vvolume)
  let n : ℚ := (vols.length : ℚ)
  let mean : ℚ := vols.sum / n
  let sampleVar : ℚ :=
    if vols.length ≥ 2 then
      ((vols.map (fun v => (v - mean) ^ 2)).sum) / ((vols.length : ℚ) - 1)
    else 0
  (if rows.any (fun r => decide (r.vhigh < r.vopen)) then ["High lt Open"] else []) ++
  (if rows.any (fun r => decide (r.vhigh < r.vclose)) then ["High lt Close"] else []) ++
  (if rows.any (fun r => decide (r.vlow > r.vopen)) then ["Low gt Open"] else []) ++
  (if rows.any (fun r => decide (r.vlow > r.vclose)) then ["Low gt Close"] else []) ++
  (if (pairsOf closes).any
      (fun p => decide (p.1 ≠ 0) && decide (|p.2 / p.1 - 1| > 1/2))
   then ["large price moves"] else []) ++
  (if rows.any (fun r => decide (r.vvolume = 0)) then ["zero volume"] else []) ++
  (if decide (sampleVar > 0) &&
      vols.any (fun v => decide (v - mean > 0) && decide ((v - mean) ^ 2 > 25 * sampleVar))
   then ["volume outliers"] else []) ++
  (if List.Chain' (fun a b => a ≤ b) (rows.map (·.date)) then []
   else ["dates out of order"]) ++
  (if (pairsOf (rows.map (·.date))).any (fun p => decide (p.2 - p.1 > 3))
   then ["date gaps"] else [])

/-- `CryptoDataValidator.validate_ohlcv_data` (crypto_data_validator.py
lines 32-136): an empty frame is rejected immediately; then missing
columns are rejected; only then do the value checks run, accumulating
errors (which force `is_valid = False`) and warnings (which do not). -/
def validateOhlcvData (f : VFrame) : VReport :=
  if f.rows.isEmpty then
    { isValid := false, errors := ["empty data"], warnings := [] }
  else if !vAllColumns f then
    { isValid := false, errors := ["missing required columns"], warnings := [] }
  else
    let errs := vErrors f.rows
    { isValid := errs.isEmpty, errors := errs, warnings := vWarnings f.rows }

/-- `validate_price_data` (utils/validators.py lines 17-62): a plain
boolean verdict — empty frames, missing columns, non-positive prices,
`High < Low` rows and negative volumes are all rejected. -/
def validatePriceData (f : VFrame) : Bool :=
  if f.rows.isEmpty then false
  else if !(f.hasOpen && f.hasHigh && f.hasLow && f.hasClose && f.hasVolume) then
    false
  else if f.rows.any (fun r =>
      decide (r.vopen ≤ 0) || decide (r.vhigh ≤ 0) ||
      decide (r.vlow ≤ 0) || decide (r.vclose ≤ 0)) then false
  else if f.rows.any (fun r => decide (r.vhigh < r.vlow)) then false
  else if f.rows.any (fun r => decide (r.vvolume < 0)) then false
  else true

/-! ## OHLCV cleaner

`src/core/crypto_data_validator.py` (`CryptoDataValidator.clean_ohlcv_data`
and its helpers).  A raw row's numeric cells may be `NaN` (`none`);
pandas comparisons against `NaN` are `False`, and row-wise max/min skip
`NaN`. -/

/-- A raw OHLCV row as the cleaner sees it. -/
structure RRow where
  date : ℤ
  rOpen : Option ℚ
  rHigh : Option ℚ
  rLow : Option ℚ
  rClose : Option ℚ
  rVol : Option ℚ
deriving Repr, DecidableEq

/-- Row-wise maximum of two possibly-`NaN` cells (pandas
`max(axis=1)`, `skipna=True`). -/
def oMax (a b : Option ℚ) : Option ℚ :=
  match a, b with
  | some x, some y => some (max x y)
  | some x, none => some x
  | none, y => y

/-- Row-wise minimum of two possibly-`NaN` cells. -/
def oMin (a b : Option ℚ) : Option ℚ :=
  match a, b with
  | some x, some y => some (min x y)
  | some x, none => some x
  | none, y => y

/-- Comparison `c ≤ x` on a possibly-`NaN` cell; `NaN` compares
`False`. -/
def oGe (x : Option ℚ) (c : ℚ) : Bool :=
  match x with
  | some v => decide (c ≤ v)
  | none => false

/-- Strict positivity of a possibly-`NaN` cell. -/
def oPos (x : Option ℚ) : Bool :=
  match x with
  | some v => decide (0 < v)
  | none => false

/-- `CryptoDataValidator._fix_price_anomalies` (crypto_data_validator.py
lines 256-272), which reassigns the columns in program order — note the
second line already sees the updated `High`:
`High ← max(High, Low)`; `Low ← min(High, Low)`;
`High ← max(High, Open, Close)`; `Low ← min(Low, Open, Close)`. -/
def fixPriceRow (r : RRow) : RRow :=
  let h1 := oMax r.rHigh r.rLow
  let l1 := oMin h1 r.rLow
  let h2 := oMax (oMax h1 r.rOpen) r.rClose
  let l2 := oMin (oMin l1 r.rOpen) r.rClose
  { r with rHigh := h2, rLow := l2 }

/-- `drop_duplicates(subset=['Date'], keep='last')`: a row survives iff
no later row carries the same date; original order of survivors is
preserved. -/
def dedupeKeepLast : List RRow → List RRow
  | [] => []
  | r :: rest =>
    if rest.any (fun x => decide (x.date = r.date)) then dedupeKeepLast rest
    else r :: dedupeKeepLast rest

/-- Insertion step of the date sort. -/
def insertByDate (r : RRow) : List RRow → List RRow
  | [] => [r]
  | x :: xs => if r.date < x.date then r :: x :: xs else x :: insertByDate r xs

/-- `sort_values('Date')` (dates are unique after deduplication, so
stability is irrelevant). -/
def sortByDate (l : List RRow) : List RRow := l.foldr insertByDate []

/-- First valid (non-`NaN`) cell at or after position `j`, with its
position. -/
def firstValidAux : List (Option ℚ) → ℕ → Option (ℕ × ℚ)
  | [], _ => none
  | x :: xs, j =>
    match x with
    | some v => some (j, v)
    | none => firstValidAux xs (j + 1)

/-- First valid cell of `l` at a position `≥ i`. -/
def firstValidFrom (l : List (Option ℚ)) (i : ℕ) : Option (ℕ × ℚ) :=
  firstValidAux (l.drop i) i

/-- Last valid cell of `l` strictly before position `i`. -/
def lastValidBefore (l : List (Option ℚ)) (i : ℕ) : Option (ℕ × ℚ) :=
  (List.range i).foldl (fun acc j =>
    match l.get? j with
    | some (some v) => some (j, v)
    | _ => acc) none

/-- Value of `Series.interpolate(method='linear')` at position `i`:
valid cells are kept; an interior `NaN` is linearly interpolated between
the surrounding valid cells; a trailing `NaN` repeats the last valid
value; a leading `NaN` (no prior valid value) stays `NaN`. -/
def interpAt (l : List (Option ℚ)) (i : ℕ) : Option ℚ :=
  match l.get? i with
  | some (some v) => some v
  | _ =>
    match lastValidBefore l i, firstValidFrom l (i + 1) with
    | some jv, some kv =>
      some (jv.2 + (kv.2 - jv.2) * ((i : ℚ) - (jv.1 : ℚ)) / ((kv.1 : ℚ) - (jv.1 : ℚ)))
    | some jv, none => some jv.2
    | none, _ => none

/-- `Series.interpolate(method='linear')` over a whole column. -/
def interpolateLinear (l : List (Option ℚ)) : List (Option ℚ) :=
  (List.range l.length).map (interpAt l)

/-- `Series.fillna(series.mean())`: replace remaining `NaN`s by the mean
of the valid cells (no-op when every cell is `NaN`). -/
def fillnaMean (l : List (Option ℚ)) : List (Option ℚ) :=
  let vs := l.filterMap id
  if vs.isEmpty then l
  else
    let m := vs.sum / (vs.length : ℚ)
    l.map (fun x =>
      match x with
      | some v => some v
      | none => some m)

/-- The interpolate-then-fill pipeline applied to one column. -/
def fillCol (l : List (Option ℚ)) : List (Option ℚ) :=
  fillnaMean (interpolateLinear l)

/-- `CryptoDataValidator._fix_volume_anomalies` (lines 274-292) on the
volume column: clip negatives to zero; when any zero remains, turn the
zeros into `NaN`, interpolate linearly, and fill leftovers with the
column mean. -/
def fixVolCol (vols : List (Option ℚ)) : List (Option ℚ) :=
  let clipped := vols.map (Option.map (fun v => max v 0))
  if clipped.any (fun x => decide (x = some (0 : ℚ))) then
    fillCol (clipped.map (fun x => if x = some (0 : ℚ) then none else x))
  else clipped

/-- Rebuild rows from the date column of `rows` and five value
columns. -/
def rebuildRows : List RRow → List (Option ℚ) → List (Option ℚ) →
    List (Option ℚ) → List (Option ℚ) → List (Option ℚ) → List RRow
  | r :: rs, a :: la, b :: lb, c :: lc, d :: ld, e :: le =>
    ⟨r.date, a, b, c, d, e⟩ :: rebuildRows rs la lb lc ld le
  | _, _, _, _, _, _ => []

/-- Apply `_fix_volume_anomalies` to a frame (only the volume column
changes). -/
def setVolumes (rows : List RRow) : List RRow :=
  rebuildRows rows (rows.map (·.rOpen)) (rows.map (·.rHigh))
    (rows.map (·.rLow)) (rows.map (·.rClose)) (fixVolCol (rows.map (·.rVol)))

/-- Whether any numeric cell of the row is missing. -/
def hasMissingRow (r : RRow) : Bool :=
  r.rOpen.isNone || r.rHigh.isNone || r.rLow.isNone ||
  r.rClose.isNone || r.rVol.isNone

/-- `CryptoDataValidator._fill_missing_values` (lines 294-313): when any
cell is missing, interpolate and mean-fill every numeric column. -/
def fillMissingValues (rows : List RRow) : List RRow :=
  if rows.any hasMissingRow then
    rebuildRows rows (fillCol (rows.map (·.rOpen))) (fillCol (rows.map (·.rHigh)))
      (fillCol (rows.map (·.rLow))) (fillCol (rows.map (·.rClose)))
      (fillCol (rows.map (·.rVol)))
  else rows

/-- `CryptoDataValidator._remove_invalid_records` (lines 315-338):
successively drop rows with non-positive `Open`/`High`/`Low`/`Close`,
negative volume, and `Close` below `0.000001`; a `NaN` cell fails every
comparison, so such rows are dropped too. -/
def removeInvalidRecords (rows : List RRow) : List RRow :=
  (((((rows.filter (fun r => oPos r.rOpen)).filter
      (fun r => oPos r.rHigh)).filter
      (fun r => oPos r.rLow)).filter
      (fun r => oPos r.rClose)).filter
      (fun r => oGe r.rVol 0)).filter
      (fun r => oGe r.rClose (1/1000000))

/-- `CryptoDataValidator.clean_ohlcv_data` (lines 205-254): dedupe by
date keeping the last write, sort by date, repair price anomalies,
repair volume anomalies, fill missing values, and drop rows still
failing the hard checks.  An empty input is returned unchanged. -/
def cleanOhlcvData (rows : List RRow) : List RRow :=
  if rows.isEmpty then rows
  else
    removeInvalidRecords (fillMissingValues (setVolumes
      ((sortByDate (dedupeKeepLast rows)).map fixPriceRow)))

/-- The spec's cleaner invariant on a single stored row: all cells
present, `high ≥ max(open, close)`, `low ≤ min(open, close)`, and
`volume ≥ 0`. -/
def rowInvariant (r : RRow) : Bool :=
  match r.rOpen, r.rHigh, r.rLow, r.rClose, r.rVol with
  | some o, some h, some lo, some c, some v =>
    decide (max o c ≤ h) && decide (lo ≤ min o c) && decide (0 ≤ v)
  | _, _, _, _, _ => false

/-- All four price cells of the row are present. -/
def pricesPresent (r : RRow) : Bool :=
  r.rOpen.isSome && r.rHigh.isSome && r.rLow.isSome && r.rClose.isSome

/-! ## Auxiliary counting and concrete example data -/

/-- Number of stored rows carrying a given `(date, symbol)` key. -/
def keyCount (st : Store) (d : ℤ) (s : String) : ℕ :=
  st.countP (keyMatch d s)

/-- A latest row on which the Coiled-Spring strategy emits a signal and
whose 60-day volatility exceeds `0.4`, so the historical-volatility
bonus is `10`. -/
def exCSRowA : CSRow :=
  { date := 0, close := 100, volume := 1000000
    ema20 := some 102, sma50 := some 101, sma100 := some 100
    sd10 := some 1, sd60 := some 4
    vol10 := some 100, vol60 := some 1000
    upDays6mo := some 70, diff3mo := some (4/10) }

/-- A latest row satisfying four of the five Coiled-Spring conditions
(volume contraction fails: `vol_10 = vol_60`). -/
def exCSRowB : CSRow :=
  { date := 0, close := 100, volume := 1000000
    ema20 := some 102, sma50 := some 101, sma100 := some 100
    sd10 := some 1, sd60 := some 4
    vol10 := some 1000, vol60 := some 1000
    upDays6mo := some 70, diff3mo := some (4/10) }

/-- A latest row on which the Turtle strategy emits a system-1 signal. -/
def exTurtleRow : TurtleRow :=
  { date := 0, close := 100, volume := 1000000
    atr := some 2, high20 := some 99, high55 := some 101
    volumeRatio := some 2, momentum5d := some (4/100), change20d := some (1/10) }

/-- A latest row on which the BNF strategy emits a buy signal. -/
def exBNFRow : BNFRow :=
  { date := 0, close := 79, volume := 1000000
    ma25 := some 100, deviationRate := some (-(21/100)), volumeRatio := some (3/2) }

/-- Cleaner input whose middle row has a missing close: interpolation
runs after the price clamp and pushes the close above the high. -/
def exBadRows : List RRow :=
  [ ⟨0, some 1, some 1, some 1, some 1, some 1⟩,
    ⟨1, some 1, some 1, some 1, none, some 1⟩,
    ⟨2, some 1, some 1, some 1, some 9, some 1⟩ ]

/-- Cleaner input with all price cells present (the spec's §8 repair
scenario, made two rows long so the volume interpolation has a
neighbour). -/
def exGoodRows : List RRow :=
  [ ⟨0, some 100, some 95, some 105, some 102, some (-5)⟩,
    ⟨1, some 100, some 110, some 90, some 101, some 7⟩ ]

/-- A frame with base columns only, for the indicator error-injection
counterexample. -/
def exBFrame : BFrame :=
  { close := [1, 2], volume := [3, 4]
    ma25 := none, deviationRate := none, buySignal := none
    volume20 := none, volumeRatio := none }

/-- An empty frame that nevertheless has every required column. -/
def exEmptyVFrame : VFrame :=
  { hasDate := true, hasOpen := true, hasHigh := true, hasLow := true
    hasClose := true, hasVolume := true, rows := [] }

/-- Day number of the scenario's `asOf` date, 2024-06-01. -/
def exAsOfDay : ℤ := daysFromCivil 2024 6 1

/-- Rows covering the full lookback range up to `asOf` for symbol
`X`. -/
def exFullRangeRows : List SRow :=
  (List.range 191).map (fun i => ⟨exAsOfDay - 190 + i, "X", 1⟩)

/-- The store after saving the full range for `X` (the range has
pairwise-distinct keys, so the save commits). -/
def exStoreX : Store := (saveStockData exFullRangeRows []).getD []


/-- The signal Turtle emits on `exTurtleRow` (system 1). -/
def exTurtleSig : TurtleSignal :=
  turtleCreateSignal exTurtleRow "system1_entry" 20 exTurtleRow.high20 2

/-- The signal BNF emits on `exBNFRow`. -/
def exBNFSig : BNFSignal :=
  { price := 79, ma25 := 100, deviationRate := -(21/100)
    volume := 1000000, volumeRatio := 3/2
    deviationScore := (bnfScore (-(21/100)) (3/2)).deviationScore
    volumeScore := (bnfScore (-(21/100)) (3/2)).volumeScore
    totalScore := (bnfScore (-(21/100)) (3/2)).totalScore }

/-- The signal Coiled-Spring emits on `exCSRowA`. -/
def exCSSig : CSSignal :=
  { price := 100, volatility10d := 1, volatility60d := 4
    ma20ema := 102, ma50sma := 101, ma100sma := 100
    volumeRatio := 100/1000, upTrendStrength := 70/120
    totalScore := (csScore 1 4 true (70/120) (100/1000)).totalScore
    volatilityScore := (csScore 1 4 true (70/120) (100/1000)).volatilityScore
    trendScore := (csScore 1 4 true (70/120) (100/1000)).trendScore
    volumeScore := (csScore 1 4 true (70/120) (100/1000)).volumeScore }

/-- The condition `priceFixed`: all four price cells present with the
clamp inequalities already holding. -/
def priceFixed (r : RRow) : Prop :=
  ∃ o h lo c : ℚ, r.rOpen = some o ∧ r.rHigh = some h ∧
    r.rLow = some lo ∧ r.rClose = some c ∧ max o c ≤ h ∧ lo ≤ min o c

/-! ## Theorems -/


/-- Per-band decomposition of `TurtleStrategy._calculate_signal_score`:
the three sub-scores sum to the total, which lies in 0-100. -/
lemma turtleScore_sum (p v m : ℚ) :
    (turtleScore p v m).breakoutScore + (turtleScore p v m).volumeScore +
      (turtleScore p v m).momentumScore = (turtleScore p v m).totalScore ∧
    0 ≤ (turtleScore p v m).totalScore ∧ (turtleScore p v m).totalScore ≤ 100 := by
  unfold turtleScore
  split_ifs <;> norm_num

/-- The BNF sub-scores sum to the total, which lies in 0-100. -/
lemma bnfScore_sum (d v : ℚ) :
    (bnfScore d v).deviationScore + (bnfScore d v).volumeScore =
      (bnfScore d v).totalScore ∧
    0 ≤ (bnfScore d v).totalScore ∧ (bnfScore d v).totalScore ≤ 100 := by
  unfold bnfScore
  split_ifs <;> norm_num

/-- The Coiled-Spring volatility band lies in 0-40. -/
lemma csScore_vol_bounds (a b : ℚ) (al : Bool) (u vr : ℚ) :
    0 ≤ (csScore a b al u vr).volatilityScore ∧
    (csScore a b al u vr).volatilityScore ≤ 40 := by
  simp only [csScore]
  split_ifs <;> norm_num

/-- The Coiled-Spring trend band lies in 0-30. -/
lemma csScore_trend_bounds (a b : ℚ) (al : Bool) (u vr : ℚ) :
    0 ≤ (csScore a b al u vr).trendScore ∧
    (csScore a b al u vr).trendScore ≤ 30 := by
  simp only [csScore]
  split_ifs <;> norm_num

/-- The Coiled-Spring volume band lies in 0-20. -/
lemma csScore_volume_bounds (a b : ℚ) (al : Bool) (u vr : ℚ) :
    0 ≤ (csScore a b al u vr).volumeScore ∧
    (csScore a b al u vr).volumeScore ≤ 20 := by
  simp only [csScore]
  split_ifs <;> norm_num

/-- The Coiled-Spring total is the named sub-scores plus the
historical-volatility bonus. -/
lemma csScore_total_eq (a b : ℚ) (al : Bool) (u vr : ℚ) :
    (csScore a b al u vr).totalScore =
      (if b > 4/10 then (10 : ℚ) else if b > 3/10 then 5 else 0) +
      (csScore a b al u vr).volatilityScore +
      (csScore a b al u vr).trendScore + (csScore a b al u vr).volumeScore := rfl

/-- The Coiled-Spring total exceeds the sum of its named sub-scores by
exactly the bonus (0, 5 or 10) and lies in 0-100. -/
lemma csScore_decomp (a b : ℚ) (al : Bool) (u vr : ℚ) :
    ((csScore a b al u vr).totalScore = (csScore a b al u vr).volatilityScore +
        (csScore a b al u vr).trendScore + (csScore a b al u vr).volumeScore ∨
      (csScore a b al u vr).totalScore = (csScore a b al u vr).volatilityScore +
        (csScore a b al u vr).trendScore + (csScore a b al u vr).volumeScore + 5 ∨
      (csScore a b al u vr).totalScore = (csScore a b al u vr).volatilityScore +
        (csScore a b al u vr).trendScore + (csScore a b al u vr).volumeScore + 10) ∧
    0 ≤ (csScore a b al u vr).totalScore ∧ (csScore a b al u vr).totalScore ≤ 100 := by
  have hV := csScore_vol_bounds a b al u vr
  have hT := csScore_trend_bounds a b al u vr
  have hU := csScore_volume_bounds a b al u vr
  have hE := csScore_total_eq a b al u vr
  have hB : (0:ℚ) ≤ (if b > 4/10 then (10 : ℚ) else if b > 3/10 then 5 else 0) ∧
      (if b > 4/10 then (10 : ℚ) else if b > 3/10 then 5 else 0) ≤ 10 := by
    split_ifs <;> norm_num
  refine ⟨?_, ?_, ?_⟩
  · rw [hE]
    split_ifs
    · right; right; ring
    · right; left; ring
    · left; ring
  · rw [hE]; linarith [hB.1, hV.1, hT.1, hU.1]
  · rw [hE]; linarith [hB.2, hV.2, hT.2, hU.2]

/-- Every Turtle signal carries the score dictionary of
`_calculate_signal_score`, so its sub-scores sum to its total. -/
lemma turtleCreateSignal_scores (r : TurtleRow) (t : String) (d : ℕ)
    (bh : Option ℚ) (a : ℚ) :
    (turtleCreateSignal r t d bh a).breakoutScore +
      (turtleCreateSignal r t d bh a).volumeScore +
      (turtleCreateSignal r t d bh a).momentumScore =
      (turtleCreateSignal r t d bh a).totalScore ∧
    0 ≤ (turtleCreateSignal r t d bh a).totalScore ∧
    (turtleCreateSignal r t d bh a).totalScore ≤ 100 := by
  simp only [turtleCreateSignal]
  exact turtleScore_sum _ _ _

/-- C1, counterexample: on `exCSRowA` the Coiled-Spring strategy emits a
signal whose named sub-scores sum to 45 while its total score is 55 —
the 10-point historical-volatility bonus is added to the total but
belongs to no named sub-score, so the claimed equality fails. -/
theorem c1_coiled_spring_bonus_cex :
    (csDetect 120 exCSRowA).map
      (fun s => (s.volatilityScore + s.trendScore + s.volumeScore,
        s.totalScore)) = [(45, 55)] ∧
    (45 : ℚ) ≠ 55 := by
  exact ⟨by with_unfolding_all decide, by with_unfolding_all decide⟩

/-- C1, amended: every Turtle signal's breakout + volume + momentum
scores equal its total, and every BNF signal's deviation + volume
scores equal its total; a Coiled-Spring signal's total equals its
volatility + trend + volume scores plus a historical-volatility bonus
of 0, 5 or 10; all totals lie in 0-100. -/
theorem c1_score_composition :
    (∀ (n : ℕ) (r : TurtleRow) (s : TurtleSignal), s ∈ turtleDetect n r →
      s.breakoutScore + s.volumeScore + s.momentumScore = s.totalScore ∧
      0 ≤ s.totalScore ∧ s.totalScore ≤ 100) ∧
    (∀ (n : ℕ) (fvr : ℚ) (r : BNFRow) (s : BNFSignal), s ∈ bnfDetect n fvr r →
      s.deviationScore + s.volumeScore = s.totalScore ∧
      0 ≤ s.totalScore ∧ s.totalScore ≤ 100) ∧
    (∀ (n : ℕ) (r : CSRow) (s : CSSignal), s ∈ csDetect n r →
      (s.totalScore = s.volatilityScore + s.trendScore + s.volumeScore ∨
       s.totalScore = s.volatilityScore + s.trendScore + s.volumeScore + 5 ∨
       s.totalScore = s.volatilityScore + s.trendScore + s.volumeScore + 10) ∧
      0 ≤ s.totalScore ∧ s.totalScore ≤ 100) := by
  refine ⟨?_, ?_, ?_⟩
  · intro n r s hs
    unfold turtleDetect at hs
    split at hs
    · cases hs
    · split at hs
      · cases hs
      · split at hs
        · cases hs
        · split at hs
          · cases hs
          · split at hs
            · cases hs
            · rcases List.mem_append.mp hs with h | h <;> split at h <;>
                first
                  | (rw [List.mem_singleton.mp h]
                     exact turtleCreateSignal_scores _ _ _ _ _)
                  | cases h
  · intro n fvr r s hs
    unfold bnfDetect at hs
    split at hs
    · cases hs
    · split at hs
      · cases hs
      · split at hs
        · cases hs
        · split at hs
          · cases hs
          · split at hs
            · split at hs
              · rw [List.mem_singleton.mp hs]
                exact bnfScore_sum _ _
              · cases hs
            · cases hs
  · intro n r s hs
    unfold csDetect at hs
    split at hs
    · cases hs
    · split at hs
      · split at hs
        · cases hs
        · split at hs
          · rw [List.mem_singleton.mp hs]
            exact csScore_decomp _ _ _ _ _
          · cases hs
      · cases hs

/-- C1, witness: the amended composition at concrete signals emitted on
`exTurtleRow`, `exBNFRow` and `exCSRowA`. -/
theorem c1_score_composition_witness :
    (exTurtleSig.breakoutScore + exTurtleSig.volumeScore +
        exTurtleSig.momentumScore = exTurtleSig.totalScore ∧
      0 ≤ exTurtleSig.totalScore ∧ exTurtleSig.totalScore ≤ 100) ∧
    (exBNFSig.deviationScore + exBNFSig.volumeScore = exBNFSig.totalScore ∧
      0 ≤ exBNFSig.totalScore ∧ exBNFSig.totalScore ≤ 100) ∧
    ((exCSSig.totalScore = exCSSig.volatilityScore + exCSSig.trendScore +
          exCSSig.volumeScore ∨
        exCSSig.totalScore = exCSSig.volatilityScore + exCSSig.trendScore +
          exCSSig.volumeScore + 5 ∨
        exCSSig.totalScore = exCSSig.volatilityScore + exCSSig.trendScore +
          exCSSig.volumeScore + 10) ∧
      0 ≤ exCSSig.totalScore ∧ exCSSig.totalScore ≤ 100) :=
  ⟨c1_score_composition.1 60 exTurtleRow exTurtleSig
      (by with_unfolding_all exact List.Mem.head []),
   c1_score_composition.2.1 30 1 exBNFRow exBNFSig
      (by with_unfolding_all exact List.Mem.head []),
   c1_score_composition.2.2 120 exCSRowA exCSSig
      (by with_unfolding_all exact List.Mem.head [])⟩

/-- C6: when only four of the five Coiled-Spring boolean conditions hold
on the latest row, `detect_signals` emits nothing — a signal requires
all five simultaneously. -/
theorem c6_coiled_spring_all_or_nothing (n : ℕ) (r : CSRow)
    (h : csConditionCount r = 4) :
    csDetect n r = [] := by
  have hb : (csVolatilityCheck r && csPriceContract r && csMaAlignment r &&
      csUpTrend6mo r && csVolContract r) = false := by
    revert h
    unfold csConditionCount
    cases csVolatilityCheck r <;> cases csPriceContract r <;>
      cases csMaAlignment r <;> cases csUpTrend6mo r <;>
      cases csVolContract r <;> simp
  unfold csDetect
  split
  · rfl
  · split
    · split
      · rfl
      · simp [hb]
    · rfl

/-- C6, witness: `exCSRowB` satisfies exactly four conditions (volume
contraction fails) and yields zero signals. -/
theorem c6_coiled_spring_all_or_nothing_witness :
    csConditionCount exCSRowB = 4 ∧ csDetect 120 exCSRowB = [] :=
  ⟨by with_unfolding_all decide,
   c6_coiled_spring_all_or_nothing 120 exCSRowB (by with_unfolding_all decide)⟩

/-- Row counts for a key distribute over list append. -/
lemma keyCount_append (a b : Store) (d : ℤ) (s : String) :
    keyCount (a ++ b) d s = keyCount a d s + keyCount b d s := by
  simp [keyCount, List.countP_append]

/-- A key is absent exactly when no stored row matches it. -/
lemma keyCount_eq_zero {st : Store} {d : ℤ} {s : String} :
    keyCount st d s = 0 ↔ ∀ r ∈ st, ¬ (keyMatch d s r = true) := by
  simp [keyCount, List.countP_eq_zero]

/-- Filtering never resurrects an absent key. -/
lemma keyCount_filter_zero {st : Store} {d : ℤ} {s : String}
    (p : SRow → Bool) (h : keyCount st d s = 0) :
    keyCount (st.filter p) d s = 0 := by
  rw [keyCount_eq_zero] at h ⊢
  intro r hr
  exact h r (List.mem_filter.mp hr).1

/-- The delete pass for a row removes every stored row under its key. -/
lemma keyCount_delete_self (st : Store) (b : SRow) :
    keyCount (st.filter (fun x => !keyMatch b.date b.symbol x)) b.date b.symbol = 0 := by
  rw [keyCount_eq_zero]
  intro r hr hk
  have hmem := (List.mem_filter.mp hr).2
  simp [hk] at hmem

/-- Folding further delete passes keeps an absent key absent. -/
lemma keyCount_foldl_zero (batch : List SRow) :
    ∀ (st : Store) (d : ℤ) (s : String), keyCount st d s = 0 →
      keyCount (batch.foldl (fun acc r =>
        acc.filter (fun x => !keyMatch r.date r.symbol x)) st) d s = 0 := by
  induction batch with
  | nil => intro st d s h; exact h
  | cons b bs ih =>
    intro st d s h
    exact ih _ d s (keyCount_filter_zero _ h)

/-- After the delete loop of `save_stock_data`, no key of the incoming
batch remains in the pre-existing rows. -/
lemma keyCount_foldl_delete (batch : List SRow) :
    ∀ (st : Store) (b : SRow), b ∈ batch →
      keyCount (batch.foldl (fun acc r =>
        acc.filter (fun x => !keyMatch r.date r.symbol x)) st) b.date b.symbol = 0 := by
  induction batch with
  | nil => intro st b hb; cases hb
  | cons b0 bs ih =>
    intro st b hb
    rcases List.mem_cons.mp hb with h | h
    · subst h
      exact keyCount_foldl_zero bs _ _ _ (keyCount_delete_self st b)
    · exact ih _ b h

/-- A batch with pairwise-distinct keys carries each of its keys exactly
once. -/
lemma keyCount_batch_nodup (batch : List SRow)
    (hnd : (batch.map (fun r => (r.date, r.symbol))).Nodup) :
    ∀ b ∈ batch, keyCount batch b.date b.symbol = 1 := by
  induction batch with
  | nil => intro b hb; cases hb
  | cons x xs ih =>
    intro b hb
    simp only [List.map_cons, List.nodup_cons] at hnd
    rcases List.mem_cons.mp hb with h | h
    · subst h
      have hx : keyMatch b.date b.symbol b = true := by simp [keyMatch]
      have hz : keyCount xs b.date b.symbol = 0 := by
        rw [keyCount_eq_zero]
        intro r hr hk
        apply hnd.1
        have hrb : r.date = b.date ∧ r.symbol = b.symbol := by
          simpa [keyMatch] using hk
        exact List.mem_map.mpr ⟨r, hr, by simp [hrb.1, hrb.2]⟩
      have hz0 : List.countP (keyMatch b.date b.symbol) xs = 0 := hz
      simp [keyCount, List.countP_cons, hx, hz0]
    · have hk : keyMatch b.date b.symbol x = false := by
        by_contra hc
        have hc2 : keyMatch b.date b.symbol x = true := by
          cases hx2 : keyMatch b.date b.symbol x
          · exact absurd hx2 hc
          · rfl
        have hxb : x.date = b.date ∧ x.symbol = b.symbol := by
          simpa [keyMatch] using hc2
        exact hnd.1 (List.mem_map.mpr ⟨b, h, by simp [hxb.1, hxb.2]⟩)
      have hres := ih hnd.2 b h
      simp [keyCount, List.countP_cons, hk] at hres ⊢
      exact hres

/-- C3: every committed `save` leaves exactly one stored row per key of
the batch — existing rows under a batch key are deleted first, and the
`PRIMARY KEY (date, symbol)` constraint makes a save whose batch itself
repeats a key fail and roll back, storing nothing.  In particular,
calling `save([r])` twice leaves exactly one stored row for `r`'s key,
with the second call's values winning. -/
theorem c3_upsert_unique_key (st : Store) (batch : List SRow) :
    (∀ st2, saveStockData batch st = some st2 →
      ∀ b ∈ batch, keyCount st2 b.date b.symbol = 1) ∧
    (∀ r r2 : SRow, r.date = r2.date → r.symbol = r2.symbol →
      ∃ st1 st2, saveStockData [r] st = some st1 ∧
        saveStockData [r2] st1 = some st2 ∧
        rowsForKey st2 r2.date r2.symbol = [r2]) := by
  constructor
  · intro st2 hsave b hb
    unfold saveStockData at hsave
    split at hsave
    · rename_i hnd
      rw [Option.some_inj] at hsave
      subst hsave
      rw [keyCount_append, keyCount_foldl_delete batch st b hb,
        keyCount_batch_nodup batch hnd b hb]
    · cases hsave
  · intro r r2 hd hs
    refine ⟨st.filter (fun x => !keyMatch r.date r.symbol x) ++ [r],
      (st.filter (fun x => !keyMatch r.date r.symbol x) ++ [r]).filter
        (fun x => !keyMatch r2.date r2.symbol x) ++ [r2], ?_, ?_, ?_⟩
    · unfold saveStockData
      rw [if_pos (by simp)]
      simp
    · unfold saveStockData
      rw [if_pos (by simp)]
      simp
    · unfold rowsForKey
      rw [List.filter_append]
      have h1 : (((st.filter (fun x => !keyMatch r.date r.symbol x)) ++
          [r]).filter (fun x => !keyMatch r2.date r2.symbol x)).filter
          (keyMatch r2.date r2.symbol) = [] := by
        rw [List.filter_filter]
        apply List.filter_eq_nil_iff.mpr
        intro a _
        simp
      rw [h1]
      simp [keyMatch]

/-- C3, witness: a committed one-row save stores its key once, and
saving two rows with the same key in succession commits both saves and
leaves exactly the second row. -/
theorem c3_upsert_unique_key_witness :
    keyCount [⟨0, "A", 1⟩] 0 "A" = 1 ∧
    (∃ st1 st2, saveStockData [⟨1, "B", 3⟩] [] = some st1 ∧
      saveStockData [⟨1, "B", 5⟩] st1 = some st2 ∧
      rowsForKey st2 1 "B" = [⟨1, "B", 5⟩]) :=
  ⟨(c3_upsert_unique_key [] [⟨0, "A", 1⟩]).1 [⟨0, "A", 1⟩] (by decide)
      ⟨0, "A", 1⟩ (by decide),
   (c3_upsert_unique_key [] []).2 ⟨1, "B", 3⟩ ⟨1, "B", 5⟩ rfl rfl⟩

/-- C4, counterexample: with `asOf = 10` and `lookbackDays = 5`, raising
the latest stored date from 6 to 7 raises the computed fetch start from
7 to 8 — increasing `latestStored` can increase the fetch start, so the
claim as stated is false. -/
theorem c4_gap_resolver_cex :
    missingStartForSymbol (some 6) 10 5 = some 7 ∧
    missingStartForSymbol (some 7) 10 5 = some 8 ∧
    ¬((8 : ℤ) ≤ 7) := by
  refine ⟨by decide, by decide, by decide⟩

/-- C4, amended: for a fixed `asOf` and `lookbackDays`, increasing an
instrument's latest stored date never DECREASES its computed fetch-start
date (the start is monotone non-decreasing in `latestStored`); likewise
the no-data start is a lower bound for every computed start. -/
theorem c4_gap_resolver_monotone (l1 l2 endD daysBack s0 s1 s2 : ℤ)
    (hl : l1 ≤ l2)
    (h0 : missingStartForSymbol none endD daysBack = some s0)
    (h1 : missingStartForSymbol (some l1) endD daysBack = some s1)
    (h2 : missingStartForSymbol (some l2) endD daysBack = some s2) :
    s0 ≤ s1 ∧ s1 ≤ s2 := by
  simp only [missingStartForSymbol] at h0 h1 h2
  split_ifs at h1 h2 <;> simp_all <;> omega

/-- C4, witness for the amended monotonicity at `asOf = 10`,
`lookbackDays = 5`, latest dates 0 and 6. -/
theorem c4_gap_resolver_monotone_witness :
    (0 : ℤ) ≤ 6 ∧ (5 : ℤ) ≤ 5 ∧ (5 : ℤ) ≤ 7 := by
  have h := c4_gap_resolver_monotone 0 6 10 5 5 5 7 (by decide)
    (by decide) (by decide) (by decide)
  exact ⟨by decide, h.1, h.2⟩

set_option maxRecDepth 40000 in
/-- C5: for symbol `X` with no stored rows, `asOf = 2024-06-01` and
`lookbackDays = 190`, the gap resolver returns fetch start 2023-11-24;
and after saving rows covering that full range up to `asOf`, a second
resolve call with the same `asOf` produces no entry for `X`. -/
theorem c5_gap_resolver_scenario :
    getMissingDates [] ["X"] exAsOfDay 190 =
      [("X", daysFromCivil 2023 11 24)] ∧
    getMissingDates exStoreX ["X"] exAsOfDay 190 = [] := by
  constructor
  · decide
  · decide

/-- C7, counterexample: a 5-day momentum of exactly `0.05` (a tier
cutoff) scores 20 — the LOWER tier — not the claimed higher tier's 25;
the code's momentum comparisons are strict. -/
theorem c7_momentum_boundary_cex :
    (turtleScore 1 1 (5/100)).momentumScore = 20 ∧ ((20 : ℚ) ≠ 25) := by
  constructor
  · with_unfolding_all decide
  · with_unfolding_all decide

/-- C7, amended: in Turtle signal scoring a breakout-distance or
volume-ratio metric lying exactly on a tier boundary receives the
higher tier's score, but a 5-day momentum exactly equal to a tier
cutoff (0.05, 0.03 or 0.01) receives the LOWER tier's score, because
the momentum comparisons are strict. -/
theorem c7_tier_boundaries (p v m : ℚ) :
    (turtleScore 2 v m).breakoutScore = 40 ∧
    (turtleScore 5 v m).breakoutScore = 30 ∧
    (turtleScore 10 v m).breakoutScore = 15 ∧
    (turtleScore p 2 m).volumeScore = 35 ∧
    (turtleScore p (3/2) m).volumeScore = 28 ∧
    (turtleScore p (6/5) m).volumeScore = 20 ∧
    (turtleScore p v (5/100)).momentumScore = 20 ∧
    (turtleScore p v (3/100)).momentumScore = 15 ∧
    (turtleScore p v (1/100)).momentumScore = 8 := by
  refine ⟨?_, ?_, ?_, ?_, ?_, ?_, ?_, ?_, ?_⟩ <;>
    simp only [turtleScore] <;> norm_num

/-- C10: validating an empty series always yields `valid = false` with
an error and no warnings — the empty frame is rejected up front,
whatever its column set, before any column or value check contributes;
and the boolean validator rejects it too. -/
theorem c10_empty_rejected (f : VFrame) (h : f.rows = []) :
    validateOhlcvData f =
      { isValid := false, errors := ["empty data"], warnings := [] } ∧
    validatePriceData f = false := by
  constructor <;> simp [validateOhlcvData, validatePriceData, h]

/-- C10, witness: the empty frame with every required column present is
rejected with an error. -/
theorem c10_empty_rejected_witness :
    validateOhlcvData exEmptyVFrame =
      { isValid := false, errors := ["empty data"], warnings := [] } ∧
    validatePriceData exEmptyVFrame = false :=
  c10_empty_rejected exEmptyVFrame rfl


/-- Column-preservation facts: each assignment step leaves every other
column untouched. -/
lemma bnfStep2_ma25 (f : BFrame) : (bnfStep2 f).ma25 = f.ma25 := rfl
lemma bnfStep3_ma25 (f : BFrame) : (bnfStep3 f).ma25 = f.ma25 := rfl
lemma bnfStep4_ma25 (f : BFrame) : (bnfStep4 f).ma25 = f.ma25 := by
  cases h : f.volumeRatio <;> simp [bnfStep4, h]
lemma bnfStep1_dev (f : BFrame) : (bnfStep1 f).deviationRate = f.deviationRate := rfl
lemma bnfStep3_dev (f : BFrame) : (bnfStep3 f).deviationRate = f.deviationRate := rfl
lemma bnfStep4_dev (f : BFrame) : (bnfStep4 f).deviationRate = f.deviationRate := by
  cases h : f.volumeRatio <;> simp [bnfStep4, h]
lemma bnfStep1_buy (f : BFrame) : (bnfStep1 f).buySignal = f.buySignal := rfl
lemma bnfStep2_buy (f : BFrame) : (bnfStep2 f).buySignal = f.buySignal := rfl
lemma bnfStep4_buy (f : BFrame) : (bnfStep4 f).buySignal = f.buySignal := by
  cases h : f.volumeRatio <;> simp [bnfStep4, h]
lemma bnfStep1_v20 (f : BFrame) : (bnfStep1 f).volume20 = f.volume20 := rfl
lemma bnfStep2_v20 (f : BFrame) : (bnfStep2 f).volume20 = f.volume20 := rfl
lemma bnfStep3_v20 (f : BFrame) : (bnfStep3 f).volume20 = f.volume20 := rfl
lemma bnfStep1_vr (f : BFrame) : (bnfStep1 f).volumeRatio = f.volumeRatio := rfl
lemma bnfStep2_vr (f : BFrame) : (bnfStep2 f).volumeRatio = f.volumeRatio := rfl
lemma bnfStep3_vr (f : BFrame) : (bnfStep3 f).volumeRatio = f.volumeRatio := rfl
lemma bnfStep1_close (f : BFrame) : (bnfStep1 f).close = f.close := rfl
lemma bnfStep2_close (f : BFrame) : (bnfStep2 f).close = f.close := rfl
lemma bnfStep3_close (f : BFrame) : (bnfStep3 f).close = f.close := rfl
lemma bnfStep4_close (f : BFrame) : (bnfStep4 f).close = f.close := by
  cases h : f.volumeRatio <;> simp [bnfStep4, h]
lemma bnfStep1_volume (f : BFrame) : (bnfStep1 f).volume = f.volume := rfl
lemma bnfStep2_volume (f : BFrame) : (bnfStep2 f).volume = f.volume := rfl
lemma bnfStep3_volume (f : BFrame) : (bnfStep3 f).volume = f.volume := rfl
lemma bnfStep4_volume (f : BFrame) : (bnfStep4 f).volume = f.volume := by
  cases h : f.volumeRatio <;> simp [bnfStep4, h]

/-- An error-injected run is one of the five step cut points. -/
lemma bnfCalc_prefix_eq (k : ℕ) (f : BFrame) :
    bnfCalcIndicators (some k) f = f ∨
    bnfCalcIndicators (some k) f = bnfStep1 f ∨
    bnfCalcIndicators (some k) f = bnfStep2 (bnfStep1 f) ∨
    bnfCalcIndicators (some k) f = bnfStep3 (bnfStep2 (bnfStep1 f)) ∨
    bnfCalcIndicators (some k) f = bnfCalcIndicators none f := by
  match k with
  | 0 => exact Or.inl rfl
  | 1 => exact Or.inr (Or.inl rfl)
  | 2 => exact Or.inr (Or.inr (Or.inl rfl))
  | 3 => exact Or.inr (Or.inr (Or.inr (Or.inl rfl)))
  | (n + 4) =>
    refine Or.inr (Or.inr (Or.inr (Or.inr ?_)))
    have ht : (bnfSteps.take (n + 4)) = bnfSteps := by
      apply List.take_of_length_le
      simp [bnfSteps]
    simp [bnfCalcIndicators, ht]

/-- C9, amended: an internal error during indicator computation
returns the in-place-mutated frame: the base columns are untouched, and
every derived column is either exactly as it was in the input or
exactly its fully-computed value — a prefix of the enrichment, never a
half-filled column; but the result need not equal the input, so the
claim's all-or-nothing reading fails (see the counterexample). -/
theorem c9_indicator_error_outcome (k : ℕ) (f : BFrame) :
    (bnfCalcIndicators (some k) f).close = f.close ∧
    (bnfCalcIndicators (some k) f).volume = f.volume ∧
    ((bnfCalcIndicators (some k) f).ma25 = f.ma25 ∨
      (bnfCalcIndicators (some k) f).ma25 = (bnfCalcIndicators none f).ma25) ∧
    ((bnfCalcIndicators (some k) f).deviationRate = f.deviationRate ∨
      (bnfCalcIndicators (some k) f).deviationRate = (bnfCalcIndicators none f).deviationRate) ∧
    ((bnfCalcIndicators (some k) f).buySignal = f.buySignal ∨
      (bnfCalcIndicators (some k) f).buySignal = (bnfCalcIndicators none f).buySignal) ∧
    ((bnfCalcIndicators (some k) f).volume20 = f.volume20 ∨
      (bnfCalcIndicators (some k) f).volume20 = (bnfCalcIndicators none f).volume20) ∧
    ((bnfCalcIndicators (some k) f).volumeRatio = f.volumeRatio ∨
      (bnfCalcIndicators (some k) f).volumeRatio = (bnfCalcIndicators none f).volumeRatio) := by
  have hfull : bnfCalcIndicators none f =
      bnfStep4 (bnfStep3 (bnfStep2 (bnfStep1 f))) := rfl
  rcases bnfCalc_prefix_eq k f with h | h | h | h | h <;> rw [h] <;>
    refine ⟨?_, ?_, ?_, ?_, ?_, ?_, ?_⟩ <;>
    simp only [hfull, bnfStep2_ma25, bnfStep3_ma25, bnfStep4_ma25,
      bnfStep1_dev, bnfStep3_dev, bnfStep4_dev,
      bnfStep1_buy, bnfStep2_buy, bnfStep4_buy,
      bnfStep1_v20, bnfStep2_v20, bnfStep3_v20,
      bnfStep1_vr, bnfStep2_vr, bnfStep3_vr,
      bnfStep1_close, bnfStep2_close, bnfStep3_close, bnfStep4_close,
      bnfStep1_volume, bnfStep2_volume, bnfStep3_volume, bnfStep4_volume] <;>
    first
      | (left; rfl)
      | (right; rfl)
      | simp

/-- C9, counterexample: an error injected after the first column
assignment of `BNFStrategy.calculate_indicators` (for instance inside
the deviation-rate computation) returns a frame that is neither the
unchanged input (the `ma25` column has been added) nor the fully
enriched series — the caller observes a partially-enriched frame. -/
theorem c9_partial_enrichment_cex :
    bnfCalcIndicators (some 1) exBFrame ≠ exBFrame ∧
    bnfCalcIndicators (some 1) exBFrame ≠ bnfCalcIndicators none exBFrame := by
  constructor
  · with_unfolding_all decide
  · with_unfolding_all decide

/-- A count splits across the partition induced by a second predicate. -/
lemma countP_split (p q : ℤ → Bool) (l : List ℤ) :
    l.countP p = (l.filter q).countP p + (l.filter (fun a => !q a)).countP p := by
  induction l with
  | nil => simp
  | cons x xs ih =>
    by_cases hq : q x <;>
      simp [List.countP_cons, List.filter_cons, hq, ih] <;> omega

/-- Membership in the pruned window. -/
lemma rlPrune_mem {w : ℤ} {st : List ℤ} {t a : ℤ} :
    a ∈ rlPrune w st t ↔ a ∈ st ∧ t - a < w := by
  simp [rlPrune]

/-- Filtering the record list never raises a window count. -/
lemma windowCount_le_of_filter (w : ℤ) (q : ℤ → Bool) (st : List ℤ) (T : ℤ) :
    windowCount w (st.filter q) T ≤ windowCount w st T := by
  unfold windowCount
  rw [List.countP_filter]
  apply List.countP_mono_left
  intro a _ h
  simp only [Bool.and_eq_true] at h ⊢
  exact h.1

/-- When every recorded time is in the past, the pruned length is the
current trailing-window count. -/
lemma rlPrune_length_eq (w : ℤ) (st : List ℤ) (t : ℤ)
    (h : ∀ r ∈ st, r ≤ t) :
    (rlPrune w st t).length = windowCount w st t := by
  unfold rlPrune windowCount
  rw [← List.countP_eq_length_filter]
  apply List.countP_congr
  intro a ha
  have := h a ha
  constructor <;> intro hh <;> simp_all <;> omega

/-- A call is admitted no earlier than its check time (the sleep is
non-negative). -/
lemma rlProcessCall_time_ge (maxR : ℕ) (w : ℤ) (st : List ℤ) (t : ℤ) :
    t ≤ (rlProcessCall maxR w st t).2 := by
  unfold rlProcessCall
  split
  · simp
  · unfold rlGetWaitTime
    cases h : (rlCanMakeRequest maxR w st t).1.min? with
    | none => simp [h]
    | some m =>
      simp only [h]
      have h0 : (0:ℤ) ≤ 0 ⊔ (m + w - t) := le_max_left 0 _
      linarith

/-- The admission time of a call is recorded in its post-state. -/
lemma rlProcessCall_self_mem (maxR : ℕ) (w : ℤ) (st : List ℤ) (t : ℤ) :
    (rlProcessCall maxR w st t).2 ∈ (rlProcessCall maxR w st t).1 := by
  unfold rlProcessCall
  split <;> simp [rlRecordRequest]

/-- In a sequential run every admission is no earlier than every
timestamp recorded before the run began. -/
lemma rlRun_admissions_ge (maxR : ℕ) (w : ℤ) :
    ∀ (ts : List ℤ) (st : List ℤ), rlSequential maxR w st ts →
      ∀ x ∈ (rlRun maxR w st ts).2, ∀ r ∈ st, r ≤ x := by
  intro ts
  induction ts with
  | nil => intro st _ x hx; cases hx
  | cons t ts ih =>
    intro st hseq x hx r hr
    obtain ⟨h1, h2⟩ := hseq
    simp only [rlRun] at hx
    rcases List.mem_cons.mp hx with h | h
    · subst h
      exact le_trans (h1 r hr) (rlProcessCall_time_ge maxR w st t)
    · have ha := ih _ h2 x h _ (rlProcessCall_self_mem maxR w st t)
      exact le_trans (le_trans (h1 r hr) (rlProcessCall_time_ge maxR w st t)) ha


/-- Sequential invariant: starting from a state whose every trailing
window is under the quota, the prior records together with all new
admissions keep every trailing window under the quota. -/
lemma rlRun_window_bound (maxR : ℕ) (w : ℤ) (hm : 1 ≤ maxR) :
    ∀ (ts : List ℤ) (st : List ℤ), rlSequential maxR w st ts →
      (∀ T, windowCount w st T ≤ maxR) →
      ∀ T, windowCount w (st ++ (rlRun maxR w st ts).2) T ≤ maxR := by
  intro ts
  induction ts with
  | nil =>
    intro st _ hwin T
    simpa [rlRun, windowCount] using hwin T
  | cons t ts ih =>
    intro st hseq hwin T
    obtain ⟨h1, h2⟩ := hseq
    have hsplit := countP_split
      (fun a => decide (T - w < a) && decide (a ≤ T))
      (fun r => decide (t - r < w)) st
    -- the state after this call keeps every window under the quota
    have hpr1 : (rlCanMakeRequest maxR w st t).1 = rlPrune w st t := rfl
    have hst' : ∀ T2, windowCount w (rlProcessCall maxR w st t).1 T2 ≤ maxR := by
      intro T2
      unfold rlProcessCall
      split
      · rename_i hlt
        simp only [rlRecordRequest, hpr1]
        unfold windowCount
        rw [List.countP_append]
        have hle : List.countP (fun a => decide (T2 - w < a) && decide (a ≤ T2))
            (rlPrune w st t) ≤ (rlPrune w st t).length := List.countP_le_length _
        have hone : List.countP (fun a => decide (T2 - w < a) && decide (a ≤ T2))
            [t] ≤ 1 := by
          have := List.countP_le_length
            (l := [t]) (fun a => decide (T2 - w < a) && decide (a ≤ T2))
          simpa using this
        simp only [rlCanMakeRequest, decide_eq_true_eq] at hlt
        omega
      · rename_i hge
        simp only [rlCanMakeRequest, decide_eq_true_eq] at hge
        push_neg at hge
        have hlen : (rlPrune w st t).length = windowCount w st t :=
          rlPrune_length_eq w st t h1
        have hmax : (rlPrune w st t).length = maxR :=
          le_antisymm (hlen ▸ hwin t) hge
        have hne : rlPrune w st t ≠ [] := by
          intro hc
          rw [hc] at hmax
          simp at hmax
          omega
        obtain ⟨m, hm2⟩ : ∃ m, (rlPrune w st t).min? = some m := by
          cases hmm : (rlPrune w st t).min? with
          | none => exact absurd (List.min?_eq_none_iff.mp hmm) hne
          | some m => exact ⟨m, rfl⟩
        have hmem : m ∈ rlPrune w st t :=
          List.min?_mem (fun a b => min_choice a b) hm2
        have hmw : t - m < w := (rlPrune_mem.mp hmem).2
        have haw : t + rlGetWaitTime w (rlPrune w st t) t = m + w := by
          simp only [rlGetWaitTime, hm2]
          omega
        simp only [rlRecordRequest, hpr1, haw]
        unfold windowCount
        rw [List.countP_append]
        by_cases hin : (decide (T2 - w < m + w) && decide (m + w ≤ T2)) = true
        · simp only [Bool.and_eq_true, decide_eq_true_eq] at hin
          have hc1 : List.countP (fun a => decide (T2 - w < a) && decide (a ≤ T2))
              (rlPrune w st t) ≤ maxR - 1 := by
            have hsum := List.length_eq_countP_add_countP
              (fun a => decide (T2 - w < a) && decide (a ≤ T2)) (rlPrune w st t)
            have hpos : 0 < List.countP
                (fun a => decide ¬((decide (T2 - w < a) && decide (a ≤ T2)) = true))
                (rlPrune w st t) := by
              rw [List.countP_pos]
              refine ⟨m, hmem, ?_⟩
              simp only [Bool.and_eq_true, decide_eq_true_eq, not_and, not_le]
              intro hx
              omega
            omega
          have hc2 : List.countP (fun a => decide (T2 - w < a) && decide (a ≤ T2))
              [m + w] ≤ 1 := by
            have := List.countP_le_length
              (l := [m + w]) (fun a => decide (T2 - w < a) && decide (a ≤ T2))
            simpa using this
          omega
        · have hz : List.countP (fun a => decide (T2 - w < a) && decide (a ≤ T2))
              [m + w] = 0 := by
            simp only [List.countP_cons, List.countP_nil]
            simp [hin]
          rw [hz]
          have hmono : List.countP (fun a => decide (T2 - w < a) && decide (a ≤ T2))
              (rlPrune w st t) ≤ windowCount w st T2 := by
            simpa [windowCount] using windowCount_le_of_filter w
              (fun r => decide (t - r < w)) st T2
          have hw2 := hwin T2
          omega
    -- main goal
    simp only [rlRun]
    unfold windowCount
    rw [List.countP_append, List.countP_cons]
    set P : ℤ → Bool := fun a => decide (T - w < a) && decide (a ≤ T) with hP
    have hw0 : List.countP P st ≤ maxR := by
      have hw := hwin T
      unfold windowCount at hw
      rw [← hP] at hw
      exact hw
    have hIH := ih (rlProcessCall maxR w st t).1 h2 hst' T
    unfold windowCount at hIH
    rw [List.countP_append, ← hP] at hIH
    by_cases hex : ∃ x, (x = (rlProcessCall maxR w st t).2 ∨
        x ∈ (rlRun maxR w (rlProcessCall maxR w st t).1 ts).2) ∧
        (T - w < x ∧ x ≤ T)
    · obtain ⟨x, hxm, hxT1, hxT2⟩ := hex
      have hxt : t ≤ x := by
        rcases hxm with h | h
        · subst h; exact rlProcessCall_time_ge maxR w st t
        · exact le_trans (rlProcessCall_time_ge maxR w st t)
            (rlRun_admissions_ge maxR w ts _ h2 x h _
              (rlProcessCall_self_mem maxR w st t))
      have hsplitP := countP_split P (fun r => decide (t - r < w)) st
      have hdead : List.countP P
          (st.filter (fun r => !(decide (t - r < w)))) = 0 := by
        rw [List.countP_eq_zero]
        intro r hr
        have hrd : r ∈ st ∧ ¬ (t - r < w) := by
          have := List.mem_filter.mp hr
          simpa using this
        rw [hP]
        simp only [Bool.and_eq_true, decide_eq_true_eq]
        rintro ⟨hr1, hr2⟩
        omega
      have hstate : List.countP P (rlProcessCall maxR w st t).1 =
          List.countP P (st.filter (fun r => decide (t - r < w))) +
          (if P (rlProcessCall maxR w st t).2 = true then 1 else 0) := by
        unfold rlProcessCall
        split <;>
          simp [rlRecordRequest, List.countP_append, List.countP_cons,
            rlCanMakeRequest, rlPrune]
      have hgi : (if P (rlProcessCall maxR w st t).2 = true then (1:ℕ) else 0) =
          (if (decide (T - w < (rlProcessCall maxR w st t).2) &&
            decide ((rlProcessCall maxR w st t).2 ≤ T)) = true then 1 else 0) := by
        rw [hP]
      rw [hgi] at hstate
      rw [hsplitP, hdead]
      omega
    · push_neg at hex
      have hx := hex (rlProcessCall maxR w st t).2 (Or.inl rfl)
      have hifz : (decide (T - w < (rlProcessCall maxR w st t).2) &&
          decide ((rlProcessCall maxR w st t).2 ≤ T)) = false := by
        by_cases hd1 : T - w < (rlProcessCall maxR w st t).2
        · have hlt := hx hd1
          have hnle : ¬ ((rlProcessCall maxR w st t).2 ≤ T) := by omega
          simp [hnle]
        · simp [hd1]
      have hrun0 : List.countP P
          (rlRun maxR w (rlProcessCall maxR w st t).1 ts).2 = 0 := by
        rw [List.countP_eq_zero]
        intro a ha
        have hxa := hex a (Or.inr ha)
        rw [hP]
        simp only [Bool.and_eq_true, decide_eq_true_eq]
        rintro ⟨hh1, hh2⟩
        have := hxa hh1
        omega
      rw [hifz, hrun0]
      simpa using hw0



/-- C8, amended: in a sequential execution — each worker call's
admission check, sleep and record complete before the next call's check
begins, as a single worker (or externally serialized workers) would run
— at most `max_requests` calls are admitted within any trailing window
of length `time_window`, provided `max_requests ≥ 1`.  Each admitted
call is recorded before the remote call executes (`record_request`
precedes the callback in `_process_request`). -/
theorem c8_rate_limiter_quota (maxR : ℕ) (w : ℤ) (ts : List ℤ) (T : ℤ)
    (hm : 1 ≤ maxR) (hseq : rlSequential maxR w [] ts) :
    windowCount w (rlRun maxR w [] ts).2 T ≤ maxR := by
  have hb := rlRun_window_bound maxR w hm ts [] hseq
    (by intro T2; simp [windowCount]) T
  simpa using hb

/-- C8, counterexample: the claim quantifies over every sequence of
admission checks and records, and `_process_request` does not re-check
after its sleep nor record atomically with the check; two overlapping
calls (quota 1, window 60) can both pass `can_make_request` before
either records, after which both are recorded inside one window — 2
admissions where the claim allows 1. -/
theorem c8_interleaved_quota_cex :
    (rlCanMakeRequest 1 60 [] 0).2 = true ∧
    (rlCanMakeRequest 1 60 (rlCanMakeRequest 1 60 [] 0).1 0).2 = true ∧
    windowCount 60
      (rlRecordRequest (rlRecordRequest
        (rlCanMakeRequest 1 60 (rlCanMakeRequest 1 60 [] 0).1 0).1 0) 0) 0 = 2 ∧
    ¬((2 : ℕ) ≤ 1) := by
  refine ⟨by decide, by decide, by decide, by decide⟩

/-- C8, witness for the amended sequential bound: quota 1, window 60,
two sequential calls checked at times 0 and 10. -/
theorem c8_rate_limiter_quota_witness :
    (1 : ℕ) ≤ 1 ∧ windowCount 60 (rlRun 1 60 [] [0, 10]).2 5 ≤ 1 := by
  have hseq : rlSequential 1 60 [] [0, 10] := by
    refine ⟨by simp, ?_⟩
    have hst1 : (rlProcessCall 1 60 ([] : List ℤ) 0).1 = [0] := by decide
    rw [hst1]
    refine ⟨?_, trivial⟩
    intro r hr
    simp at hr
    omega
  exact ⟨le_refl 1, c8_rate_limiter_quota 1 60 [0, 10] 5 (le_refl 1) hseq⟩

/-- Deduplication only drops rows. -/
lemma mem_dedupeKeepLast {r : RRow} : ∀ {l : List RRow},
    r ∈ dedupeKeepLast l → r ∈ l := by
  intro l
  induction l with
  | nil => intro h; cases h
  | cons x xs ih =>
    intro h
    unfold dedupeKeepLast at h
    split at h
    · exact List.mem_cons_of_mem _ (ih h)
    · rcases List.mem_cons.mp h with h1 | h1
      · exact h1 ▸ List.mem_cons_self _ _
      · exact List.mem_cons_of_mem _ (ih h1)

/-- Insertion adds exactly the new row. -/
lemma mem_insertByDate {r x : RRow} : ∀ {l : List RRow},
    r ∈ insertByDate x l → r = x ∨ r ∈ l := by
  intro l
  induction l with
  | nil =>
    intro h
    rcases List.mem_singleton.mp h with h1
    exact Or.inl h1
  | cons y ys ih =>
    intro h
    unfold insertByDate at h
    split at h
    · rcases List.mem_cons.mp h with h1 | h1
      · exact Or.inl h1
      · exact Or.inr h1
    · rcases List.mem_cons.mp h with h1 | h1
      · exact Or.inr (h1 ▸ List.mem_cons_self _ _)
      · rcases ih h1 with h2 | h2
        · exact Or.inl h2
        · exact Or.inr (List.mem_cons_of_mem _ h2)

/-- Sorting permutes, so membership is preserved. -/
lemma mem_sortByDate {r : RRow} : ∀ {l : List RRow},
    r ∈ sortByDate l → r ∈ l := by
  intro l
  induction l with
  | nil => intro h; cases h
  | cons x xs ih =>
    intro h
    unfold sortByDate at h
    simp only [List.foldr_cons] at h
    rcases mem_insertByDate h with h1 | h1
    · exact h1 ▸ List.mem_cons_self _ _
    · exact List.mem_cons_of_mem _ (ih h1)

/-- The price repair establishes the clamp inequalities on any row
whose price cells are present. -/
lemma fixPriceRow_priceFixed {r : RRow} (h : pricesPresent r = true) :
    priceFixed (fixPriceRow r) := by
  unfold pricesPresent at h
  simp only [Bool.and_eq_true, Option.isSome_iff_exists] at h
  obtain ⟨⟨⟨⟨o, ho⟩, ⟨hh, hhh⟩⟩, ⟨lo, hlo⟩⟩, ⟨c, hc⟩⟩ := h
  unfold fixPriceRow
  rw [ho, hhh, hlo, hc]
  simp only [oMax, oMin]
  refine ⟨o, _, _, c, rfl, rfl, rfl, rfl, ?_, ?_⟩
  · exact max_le (le_max_of_le_left (le_max_right (max hh lo) o))
      (le_max_right _ c)
  · exact le_min (le_trans (min_le_left _ c) (min_le_right _ o))
      (min_le_right _ c)


/-- Every rebuilt row takes its cells from the columns at one common
index, and its date from the original row there. -/
lemma rebuildRows_mem {r2 : RRow} :
    ∀ (rows : List RRow) (os hs ls cs vs : List (Option ℚ)),
      r2 ∈ rebuildRows rows os hs ls cs vs →
      ∃ (i : ℕ) (r : RRow), rows.get? i = some r ∧ r2.date = r.date ∧
        os.get? i = some r2.rOpen ∧ hs.get? i = some r2.rHigh ∧
        ls.get? i = some r2.rLow ∧ cs.get? i = some r2.rClose ∧
        vs.get? i = some r2.rVol := by
  intro rows
  induction rows with
  | nil =>
    intro os hs ls cs vs h
    simp [rebuildRows] at h
  | cons r rs ih =>
    intro os hs ls cs vs h
    match os, hs, ls, cs, vs with
    | [], _, _, _, _ => simp [rebuildRows] at h
    | _ :: _, [], _, _, _ => simp [rebuildRows] at h
    | _ :: _, _ :: _, [], _, _ => simp [rebuildRows] at h
    | _ :: _, _ :: _, _ :: _, [], _ => simp [rebuildRows] at h
    | _ :: _, _ :: _, _ :: _, _ :: _, [] => simp [rebuildRows] at h
    | a :: la, b :: lb, c :: lc, d :: ld, e :: le =>
      rcases List.mem_cons.mp h with h1 | h1
      · exact ⟨0, r, rfl, by simp [h1], by simp [h1], by simp [h1],
          by simp [h1], by simp [h1], by simp [h1]⟩
      · obtain ⟨i, r0, hi⟩ := ih la lb lc ld le h1
        exact ⟨i + 1, r0, hi.1, hi.2.1, hi.2.2.1, hi.2.2.2.1,
          hi.2.2.2.2.1, hi.2.2.2.2.2.1, hi.2.2.2.2.2.2⟩

/-- Interpolation keeps a cell that is already present. -/
lemma interpAt_allSome {l : List (Option ℚ)} (hall : ∀ x ∈ l, x.isSome)
    {i : ℕ} {x : Option ℚ} (hget : l.get? i = some x) :
    interpAt l i = x := by
  have hx : x.isSome := hall x (List.get?_mem hget)
  obtain ⟨v, hv⟩ := Option.isSome_iff_exists.mp hx
  subst hv
  unfold interpAt
  rw [hget]

/-- Interpolating a column with no missing cells is the identity. -/
lemma interpolateLinear_allSome {l : List (Option ℚ)}
    (hall : ∀ x ∈ l, x.isSome) :
    interpolateLinear l = l := by
  apply List.ext_get?
  intro n
  unfold interpolateLinear
  rw [List.get?_map]
  by_cases hn : n < l.length
  · rw [List.get?_range hn]
    cases hget : l.get? n with
    | none =>
      exact absurd (List.get?_eq_none.mp hget) (by omega)
    | some x =>
      simp only [Option.map_some']
      rw [interpAt_allSome hall hget]
  · have h1 : l.get? n = none := List.get?_eq_none.mpr (le_of_not_lt hn)
    have h2 : (List.range l.length).get? n = none :=
      List.get?_eq_none.mpr (by simpa using le_of_not_lt hn)
    rw [h1, h2]
    rfl


/-- Mean-filling a column with no missing cells is the identity. -/
lemma fillnaMean_allSome {l : List (Option ℚ)}
    (hall : ∀ x ∈ l, x.isSome) :
    fillnaMean l = l := by
  unfold fillnaMean
  dsimp only
  split
  · rfl
  · have : ∀ x ∈ l, (fun y => match y with
        | some v => some v
        | none => some ((l.filterMap id).sum / ((l.filterMap id).length : ℚ))) x = x := by
      intro x hx
      obtain ⟨v, hv⟩ := Option.isSome_iff_exists.mp (hall x hx)
      rw [hv]
    rw [List.map_congr_left this]
    simp

/-- The interpolate-then-fill pipeline fixes complete columns. -/
lemma fillCol_allSome {l : List (Option ℚ)}
    (hall : ∀ x ∈ l, x.isSome) :
    fillCol l = l := by
  unfold fillCol
  rw [interpolateLinear_allSome hall, fillnaMean_allSome hall]

/-- The volume repair leaves every row's price cells untouched. -/
lemma setVolumes_priceFixed {rows : List RRow}
    (h : ∀ r ∈ rows, priceFixed r) :
    ∀ r2 ∈ setVolumes rows, priceFixed r2 := by
  intro r2 h2
  obtain ⟨i, r, hget, _, ho, hh, hl, hc, _⟩ := rebuildRows_mem rows _ _ _ _ _ h2
  have hr := h r (List.get?_mem hget)
  obtain ⟨o, hv, lo, c, ho1, hh1, hl1, hc1, hb1, hb2⟩ := hr
  rw [List.get?_map, hget] at ho hh hl hc
  simp only [Option.map_some'] at ho hh hl hc
  refine ⟨o, hv, lo, c, ?_, ?_, ?_, ?_, hb1, hb2⟩
  · rw [← Option.some_inj.mp ho, ho1]
  · rw [← Option.some_inj.mp hh, hh1]
  · rw [← Option.some_inj.mp hl, hl1]
  · rw [← Option.some_inj.mp hc, hc1]

/-- Missing-value filling leaves already-complete price columns
untouched, so the clamp inequalities survive it. -/
lemma fillMissingValues_priceFixed {rows : List RRow}
    (h : ∀ r ∈ rows, priceFixed r) :
    ∀ r2 ∈ fillMissingValues rows, priceFixed r2 := by
  intro r2 h2
  unfold fillMissingValues at h2
  split at h2
  · obtain ⟨i, r, hget, _, ho, hh, hl, hc, _⟩ :=
      rebuildRows_mem rows _ _ _ _ _ h2
    have hr := h r (List.get?_mem hget)
    obtain ⟨o, hv, lo, c, ho1, hh1, hl1, hc1, hb1, hb2⟩ := hr
    have hso : ∀ x ∈ rows.map (·.rOpen), x.isSome := by
      intro x hx
      obtain ⟨r3, hr3, hx3⟩ := List.mem_map.mp hx
      obtain ⟨o3, _, _, _, ho3, _⟩ := h r3 hr3
      rw [← hx3, ho3]
      rfl
    have hsh : ∀ x ∈ rows.map (·.rHigh), x.isSome := by
      intro x hx
      obtain ⟨r3, hr3, hx3⟩ := List.mem_map.mp hx
      obtain ⟨_, h3, _, _, _, hh3, _⟩ := h r3 hr3
      rw [← hx3, hh3]
      rfl
    have hsl : ∀ x ∈ rows.map (·.rLow), x.isSome := by
      intro x hx
      obtain ⟨r3, hr3, hx3⟩ := List.mem_map.mp hx
      obtain ⟨_, _, l3, _, _, _, hl3, _⟩ := h r3 hr3
      rw [← hx3, hl3]
      rfl
    have hsc : ∀ x ∈ rows.map (·.rClose), x.isSome := by
      intro x hx
      obtain ⟨r3, hr3, hx3⟩ := List.mem_map.mp hx
      obtain ⟨_, _, _, c3, _, _, _, hc3, _⟩ := h r3 hr3
      rw [← hx3, hc3]
      rfl
    rw [fillCol_allSome hso, List.get?_map, hget] at ho
    rw [fillCol_allSome hsh, List.get?_map, hget] at hh
    rw [fillCol_allSome hsl, List.get?_map, hget] at hl
    rw [fillCol_allSome hsc, List.get?_map, hget] at hc
    simp only [Option.map_some'] at ho hh hl hc
    refine ⟨o, hv, lo, c, ?_, ?_, ?_, ?_, hb1, hb2⟩
    · rw [← Option.some_inj.mp ho, ho1]
    · rw [← Option.some_inj.mp hh, hh1]
    · rw [← Option.some_inj.mp hl, hl1]
    · rw [← Option.some_inj.mp hc, hc1]
  · exact h r2 h2

/-- A surviving row passed every hard filter. -/
lemma mem_removeInvalidRecords {r : RRow} {rows : List RRow}
    (h : r ∈ removeInvalidRecords rows) :
    r ∈ rows ∧ oPos r.rOpen = true ∧ oPos r.rHigh = true ∧
    oPos r.rLow = true ∧ oPos r.rClose = true ∧ oGe r.rVol 0 = true := by
  unfold removeInvalidRecords at h
  have h6 := List.mem_filter.mp h
  have h5 := List.mem_filter.mp h6.1
  have h4 := List.mem_filter.mp h5.1
  have h3 := List.mem_filter.mp h4.1
  have h2 := List.mem_filter.mp h3.1
  have h1 := List.mem_filter.mp h2.1
  exact ⟨h1.1, h1.2, h2.2, h3.2, h4.2, h5.2⟩


/-- C2, amended: for every input series in which every row has all four
price cells present, every row of the cleaner's output satisfies
`high ≥ max(open, close)`, `low ≤ min(open, close)` and `volume ≥ 0`.
(For inputs with missing price cells the guarantee fails — see the
counterexample, where interpolation after the price clamp pushes a
close above its high.) -/
theorem c2_cleaner_invariant (rows : List RRow)
    (hp : ∀ r ∈ rows, pricesPresent r = true) :
    ∀ r ∈ cleanOhlcvData rows, rowInvariant r = true := by
  intro r hr
  unfold cleanOhlcvData at hr
  split at hr
  · rename_i hemp
    rw [List.isEmpty_iff] at hemp
    rw [hemp] at hr
    cases hr
  · obtain ⟨hmem, ho, hh, hl, hc, hv⟩ := mem_removeInvalidRecords hr
    have hfix : ∀ r2 ∈ (sortByDate (dedupeKeepLast rows)).map fixPriceRow,
        priceFixed r2 := by
      intro r2 h2
      obtain ⟨r1, h1, he⟩ := List.mem_map.mp h2
      have hr1 : r1 ∈ rows := mem_dedupeKeepLast (mem_sortByDate h1)
      exact he ▸ fixPriceRow_priceFixed (hp r1 hr1)
    have hpf := fillMissingValues_priceFixed (setVolumes_priceFixed hfix) r hmem
    obtain ⟨o, h2, lo, c, ho1, hh1, hl1, hc1, hb1, hb2⟩ := hpf
    unfold rowInvariant
    rw [ho1, hh1, hl1, hc1]
    cases hvv : r.rVol with
    | none =>
      unfold oGe at hv
      rw [hvv] at hv
      cases hv
    | some v =>
      unfold oGe at hv
      rw [hvv] at hv
      simp only [decide_eq_true_eq] at hv
      simp [hb1, hb2, hv]

/-- C2, counterexample: on `exBadRows` — whose middle row has a missing
close — the middle OUTPUT row of the cleaner has `high = 1` but
`close = 5`: `_fill_missing_values` interpolates the close after
`_fix_price_anomalies` has already clamped the high, and
`_remove_invalid_records` never re-checks the ordering invariant, so
the claim fails as stated over all inputs. -/
theorem c2_cleaner_invariant_cex :
    (cleanOhlcvData exBadRows).map (fun r => rowInvariant r) =
      [true, false, true] ∧ ¬(false = true) := by
  refine ⟨by with_unfolding_all decide, by decide⟩

/-- C2, witness: the spec's own repair scenario (`open 100, high 95,
low 105, close 102, volume -5`, plus a second day) has all price cells
present and the cleaned output satisfies the invariant. -/
theorem c2_cleaner_invariant_witness :
    (∀ r ∈ exGoodRows, pricesPresent r = true) ∧
    ∀ r ∈ cleanOhlcvData exGoodRows, rowInvariant r = true :=
  ⟨by with_unfolding_all decide, c2_cleaner_invariant exGoodRows (by with_unfolding_all decide)⟩

end CryptoStrategy
